import Mathlib

/-! Crosspoint Sync: a shallow embedding of `app.js` and `sw.js`.

The web client keeps a queue of files, probes a device over HTTP and uploads the
queue entry by entry (`app.js`); a service worker keeps an offline copy of the
application shell (`sw.js`).

JavaScript values are embedded as follows.

* Strings that the code inspects (addresses, URLs, cache names) are lists of
  characters; strings that are only carried around (file names, status texts)
  are `String`.
* The module-level variables `deviceUrl`, `connected`, `queue` together with the
  persisted address form the record `AppState`. Ghost fields record the network
  requests issued so far, the result log handed to `showHistory`, and the errors
  that escaped a `syncFiles` call.
* An `async` function is cut at each `await`: the part before the `await` is one
  function, the continuation is another one that receives the settled value.
  A suspended `syncFiles` call is a `Pass` record holding its local variables.
* An exception is a value of `JsError`; code that may throw returns `Except`.
-/

namespace Crosspoint

/-! ## Strings -/

/-- Text that the program inspects, as a sequence of characters. -/
abbrev Str := List Char

/-- JavaScript `hay.startsWith(needle)`. -/
def startsWith (hay needle : Str) : Bool :=
  needle.isPrefixOf hay

/-- JavaScript `hay.includes(needle)`: the needle occurs at some position. -/
def includes : Str → Str → Bool
  | [], needle => needle.isPrefixOf []
  | c :: hay, needle => needle.isPrefixOf (c :: hay) || includes hay needle

/-! ## Files, queue entries and results (`app.js`, lines 8-10) -/

/-- A browser `File`: its name, its size and an identifier of its contents. -/
structure File where
  name : String
  size : Nat
  blob : Nat
  deriving DecidableEq, Repr

/-- An element of `queue`: `{ file, name, size }`. -/
structure QueueEntry where
  file : File
  name : String
  size : Nat
  deriving DecidableEq, Repr

/-- An element of `results`: `{ name, success }`. -/
structure UploadResult where
  name : String
  success : Bool
  deriving DecidableEq, Repr

/-- A JavaScript number as `parseInt` returns it: an integer or `NaN`. -/
inductive JsNumber where
  | int (i : Int)
  | nan
  deriving DecidableEq, Repr

/-- ECMAScript `ToIntegerOrInfinity` on the values of `JsNumber`: `NaN` becomes 0. -/
def toIntegerOrInfinity : JsNumber → Int
  | .int i => i
  | .nan => 0

/-- The start position `Array.prototype.splice` computes from its first argument:
a negative value counts from the end, and the result is clamped to `0 .. len`. -/
def spliceStart (len : Nat) (start : JsNumber) : Nat :=
  let relativeStart := toIntegerOrInfinity start
  if relativeStart < 0 then (max ((len : Int) + relativeStart) 0).toNat
  else min relativeStart.toNat len

/-- The array left behind by `xs.splice(start, deleteCount)` (no inserted items). -/
def splice {α : Type} (xs : List α) (start : JsNumber) (deleteCount : Nat) : List α :=
  let actualStart := spliceStart xs.length start
  let actualDeleteCount := min deleteCount (xs.length - actualStart)
  xs.take actualStart ++ xs.drop (actualStart + actualDeleteCount)

/-- JavaScript `xs.push(x)`. -/
def push {α : Type} (xs : List α) (x : α) : List α :=
  xs ++ [x]

/-- The object literal pushed by `addFiles` for one file. -/
def entryOf (file : File) : QueueEntry :=
  { file := file, name := file.name, size := file.size }

/-- The queue after `addFiles(files)`: the `for ... of` loop pushes one entry per file. -/
def addFiles (queue : List QueueEntry) (files : List File) : List QueueEntry :=
  files.foldl (fun q file => push q (entryOf file)) queue

/-- The queue after `removeFile(index)`: `queue.splice(index, 1)`. -/
def removeFile (queue : List QueueEntry) (index : JsNumber) : List QueueEntry :=
  splice queue index 1

/-- The queue after `clearQueue()`. -/
def clearQueue (_queue : List QueueEntry) : List QueueEntry :=
  []

/-! ## HTTP and JSON as the client observes them -/

/-- The `name` of a thrown error. `fetch` rejects with an `AbortError` when its
signal fires and with a `TypeError` on a network failure; `Response.json`
rejects with a `SyntaxError`; reading a property of `null` or `undefined` throws
a `TypeError`. -/
inductive JsError where
  | abortError
  | typeError
  | syntaxError
  deriving DecidableEq, Repr

/-- A decoded JSON value. Of a number only whether it is zero is observed, so
integers stand for all numbers. -/
inductive Json where
  | null
  | bool (b : Bool)
  | num (n : Int)
  | str (s : String)
  | arr (items : List Json)
  | obj (fields : List (String × Json))

/-- JavaScript truthiness of a decoded JSON value. -/
def Json.truthy : Json → Bool
  | .null => false
  | .bool b => b
  | .num n => n != 0
  | .str s => s != ""
  | .arr _ => true
  | .obj _ => true

/-- The truthiness of `data.ready`: reading a property of `null` throws, a primitive
or an array has no such property (`undefined`, falsy), and in an object the last
occurrence of the key is the one `JSON.parse` keeps. -/
def Json.ready : Json → Except JsError Bool
  | .null => .error .typeError
  | .obj fields =>
    match fields.reverse.lookup "ready" with
    | some v => .ok v.truthy
    | none => .ok false
  | _ => .ok false

/-- An HTTP response: its status code and its body decoded as JSON, `none` when the
body is not valid JSON. -/
structure Response where
  status : Nat
  body : Option Json

/-- The getter `resp.ok`: the status is in the range 200-299. -/
def Response.ok (resp : Response) : Bool :=
  decide (200 ≤ resp.status) && decide (resp.status ≤ 299)

/-- The promise `resp.json()`, settled. -/
def Response.json (resp : Response) : Except JsError Json :=
  match resp.body with
  | some data => .ok data
  | none => .error .syntaxError

/-- A settled `fetch` promise. -/
inductive FetchResult where
  | resolved (resp : Response)
  | rejected (e : JsError)

/-- The value of `await fetch(...)`: the response, or the rejection rethrown. -/
def FetchResult.await : FetchResult → Except JsError Response
  | .resolved resp => .ok resp
  | .rejected e => .error e

/-- A request the client has issued. -/
inductive Request where
  | getStatus (url : Str)
  | postUpload (url : Str) (filename : String) (file : File)
  deriving DecidableEq, Repr

/-! ## Application state (`app.js`, lines 8-10) -/

/-- A `syncFiles` call suspended at `await fetch(...)`, with its local variables. -/
structure Pass where
  totalFiles : Nat
  i : Nat
  results : List UploadResult
  item : QueueEntry
  deriving DecidableEq, Repr

/-- The mutable state of the page. -/
structure AppState where
  /-- The variable `deviceUrl`. -/
  deviceUrl : Str
  /-- The variable `connected`. -/
  connected : Bool
  /-- The variable `queue`. -/
  queue : List QueueEntry
  /-- The key `crosspoint_device_ip` of `localStorage`. -/
  savedIp : Option Str
  /-- The text last given to `setStatus`. -/
  statusText : String
  /-- The argument of the last `showHistory` call, if any. -/
  history : Option (List UploadResult)
  /-- Ghost: every request issued so far, oldest first. -/
  sent : List Request
  /-- The `syncFiles` calls currently suspended at an upload. -/
  passes : List Pass
  /-- The number of `backgroundPoll` calls suspended at their health check. -/
  polls : Nat
  /-- Ghost: errors that escaped a `syncFiles` call (rejected promises). -/
  uncaught : List JsError
  deriving DecidableEq, Repr

/-- The state when the script has loaded with nothing stored. -/
def AppState.initial : AppState :=
  { deviceUrl := [], connected := false, queue := [], savedIp := none, statusText := "",
    history := none, sent := [], passes := [], polls := 0, uncaught := [] }

/-! ## Connection (`app.js`, lines 69-129) -/

/-- The literal `'http://'`. -/
def httpScheme : Str := "http://".toList

/-- The literal `'https://'`. -/
def httpsScheme : Str := "https://".toList

/-- The literal `'/status'`. -/
def statusPath : Str := "/status".toList

/-- The literal `'/upload'`. -/
def uploadPath : Str := "/upload".toList

/-- Lines 73-75 of `attemptConnect`: the address the function goes on with. -/
def normalizeIp (ip : Str) : Str :=
  if !startsWith ip httpScheme && !startsWith ip httpsScheme then httpScheme ++ ip else ip

/-- The function `onConnected(ip)`. -/
def onConnected (s : AppState) (ip : Str) : AppState :=
  { s with connected := true, savedIp := some ip, statusText := "Connected" }

/-- The function `onConnectionFailed(reason)`. -/
def onConnectionFailed (s : AppState) (reason : String) : AppState :=
  { s with connected := false, statusText := reason }

/-- The part of `attemptConnect(ip)` before its `await`, for a truthy `ip`: the state
it leaves and the address it goes on with. The request for `deviceUrl + '/status'`
is issued here. -/
def attemptConnectBegin (s : AppState) (ip : Str) : AppState × Str :=
  let ip := normalizeIp ip
  ({ s with deviceUrl := ip, statusText := "Connecting...",
            sent := s.sent ++ [.getStatus (ip ++ statusPath)] }, ip)

/-- The body of the `try` block of `attemptConnect` once the request has settled. -/
def attemptConnectTry (s : AppState) (ip : Str) (r : FetchResult) : Except JsError AppState := do
  let resp ← r.await
  if resp.ok then
    let data ← resp.json
    if (← data.ready) then
      return onConnected s ip
  return onConnectionFailed s "Device not ready"

/-- The handler `catch (e)` of `attemptConnect`. -/
def attemptConnectCatch (s : AppState) (e : JsError) : AppState :=
  onConnectionFailed s (if e = .abortError then "Timeout" else "Connection failed")

/-- A whole call `attemptConnect(ip)` whose request settles as `r`: the state when
the returned promise settles, or the error it rejects with. -/
def attemptConnect (s : AppState) (ip : Str) (r : FetchResult) : Except JsError AppState :=
  if ip.isEmpty then .ok s
  else
    let (s1, ip1) := attemptConnectBegin s ip
    match attemptConnectTry s1 ip1 r with
    | .ok s2 => .ok s2
    | .error e => .ok (attemptConnectCatch s1 e)

/-! ## Sync (`app.js`, lines 196-240) -/

/-- The request built for one queue entry: the file under the entry's name, the name
also in the header `X-Filename`. -/
def uploadRequest (deviceUrl : Str) (item : QueueEntry) : Request :=
  .postUpload (deviceUrl ++ uploadPath) item.name item.file

/-- The `for` loop of `syncFiles` from the test `i < totalFiles` up to the next
`await`. Inside the loop `queue[i]` is read afresh; when it is `undefined`,
`item.name` throws outside the `try` and the call ends with that error. After the
loop the results are shown and the queue is emptied. -/
def syncLoop (s : AppState) (totalFiles i : Nat) (results : List UploadResult) : AppState :=
  if i < totalFiles then
    match s.queue[i]? with
    | some item =>
      { s with sent := s.sent ++ [uploadRequest s.deviceUrl item],
               passes := s.passes ++ [{ totalFiles := totalFiles, i := i,
                                        results := results, item := item }] }
    | none => { s with uncaught := s.uncaught ++ [.typeError] }
  else
    { s with history := some results, queue := [] }

/-- A call `syncFiles()` up to its first `await`. -/
def syncFiles (s : AppState) : AppState :=
  if s.queue.length = 0 || !s.connected then s
  else syncLoop s s.queue.length 0 []

/-- The `success` flag recorded for a settled upload: `resp.ok`, and `false` when the
request threw. -/
def uploadSucceeded : FetchResult → Bool
  | .resolved resp => resp.ok
  | .rejected _ => false

/-- The continuation of the `k`-th suspended `syncFiles` call when its upload has
settled as `r`: record the result and go round the loop. -/
def resumeSync (s : AppState) (k : Nat) (r : FetchResult) : AppState :=
  match s.passes[k]? with
  | none => s
  | some p =>
    syncLoop { s with passes := s.passes.eraseIdx k } p.totalFiles (p.i + 1)
      (push p.results { name := p.item.name, success := uploadSucceeded r })

/-! ## Background poll (`app.js`, lines 283-304) -/

/-- A call `backgroundPoll()` up to its `await fetch(...)`. -/
def backgroundPollBegin (s : AppState) : AppState :=
  if !s.connected && !s.deviceUrl.isEmpty then
    { s with sent := s.sent ++ [.getStatus (s.deviceUrl ++ statusPath)], polls := s.polls + 1 }
  else s

/-- The body of the `try` block of `backgroundPoll` once the request has settled. The
call `syncFiles()` is not awaited: it runs up to its first `await`. -/
def backgroundPollTry (s : AppState) (r : FetchResult) : Except JsError AppState := do
  let resp ← r.await
  if resp.ok then
    let data ← resp.json
    if (← data.ready) then
      let s1 := onConnected s s.deviceUrl
      if s1.queue.length > 0 then
        return syncFiles s1
      return s1
  return s

/-- The continuation of a suspended `backgroundPoll` call; its `catch` is empty. -/
def backgroundPollSettled (s : AppState) (r : FetchResult) : AppState :=
  if s.polls = 0 then s
  else
    let s0 := { s with polls := s.polls - 1 }
    match backgroundPollTry s0 r with
    | .ok s1 => s1
    | .error _ => s0

/-! ## The page as a transition system -/

/-- What can happen to the page: a click on the sync button, the interval timer, and
the settling of a request some suspended call is waiting for. -/
inductive Event where
  | syncClick
  | uploadSettled (k : Nat) (r : FetchResult)
  | pollTimer
  | pollSettled (r : FetchResult)

/-- One event handled to its next suspension point. -/
def step (s : AppState) : Event → AppState
  | .syncClick => syncFiles s
  | .uploadSettled k r => resumeSync s k r
  | .pollTimer => backgroundPollBegin s
  | .pollSettled r => backgroundPollSettled s r

/-- A sequence of events handled in order. -/
def run (s : AppState) (events : List Event) : AppState :=
  events.foldl step s

/-- A pass started on `s` and driven to its end by the outcomes of its uploads, one
outcome per upload, no other event in between. -/
def syncPass (s : AppState) (outcomes : List FetchResult) : AppState :=
  run (syncFiles s) (outcomes.map (Event.uploadSettled 0))

/-! ## The service worker (`sw.js`)

The Cache API is embedded as association lists: a cache is a list of stored
requests with their responses, the cache storage maps generation names to caches.
A request is its URL, its method and its headers. Two requests are compared as
the Cache API compares them: only `GET` requests match, fragments are left out
of the comparison, and the headers named by the `Vary` header of the stored
response must agree. Header names are written in lower case. -/

/-- The method of a request. -/
inductive HttpMethod where
  | get
  | head
  | post
  | put
  | delete
  | options
  | patch
  deriving DecidableEq, Repr

/-- A `Request` as the worker sees it. -/
structure SwRequest where
  url : Str
  method : HttpMethod
  headers : List (String × String)
  deriving DecidableEq, Repr

/-- A `Response` as the worker sees it: the status code, an identifier of the
contents, and the header names listed in its `Vary` header. -/
structure NetResponse where
  status : Nat
  content : Nat
  vary : List String
  deriving DecidableEq, Repr

/-- The getter `response.ok`. -/
def NetResponse.ok (r : NetResponse) : Bool :=
  decide (200 ≤ r.status) && decide (r.status ≤ 299)

/-- A URL without its fragment. -/
def stripFragment (url : Str) : Str :=
  url.takeWhile (fun c => c ≠ '#')

/-- The URL has the scheme `http` or `https`. -/
def hasHttpScheme (url : Str) : Bool :=
  startsWith url "http://".toList || startsWith url "https://".toList

/-- One cache generation: stored request and response, oldest first. -/
abbrev Cache := List (SwRequest × NetResponse)

/-- The object `caches`: generation name and cache, in creation order. -/
abbrev CacheStorage := List (Str × Cache)

/-- The Cache API test "request matches cached item" with default options. -/
def requestMatches (query : SwRequest) (cached : SwRequest × NetResponse) : Bool :=
  decide (query.method = .get)
    && decide (stripFragment query.url = stripFragment cached.1.url)
    && cached.2.vary.all (fun field =>
        decide (field ≠ "*")
          && decide (query.headers.lookup field = cached.1.headers.lookup field))

/-- The method `cache.match(request)`. -/
def Cache.matchRequest (c : Cache) (request : SwRequest) : Option NetResponse :=
  (c.find? (requestMatches request)).map (fun e => e.2)

/-- The batch operation behind `cache.put`: the entries the request matches are
removed and the new pair is appended. -/
def Cache.store (c : Cache) (request : SwRequest) (resp : NetResponse) : Cache :=
  c.filter (fun e => !requestMatches request e) ++ [(request, resp)]

/-- The checks of `cache.put(request, response)`: it throws a `TypeError` unless the
request is a `GET` request for an `http` or `https` URL, the status is not 206 and
the response has no `Vary: *`. -/
def putAllowed (request : SwRequest) (resp : NetResponse) : Bool :=
  decide (request.method = .get) && hasHttpScheme request.url
    && decide (resp.status ≠ 206) && !resp.vary.contains "*"

/-- The method `cache.put(request, response)`; `none` when the promise rejects. -/
def Cache.put (c : Cache) (request : SwRequest) (resp : NetResponse) : Option Cache :=
  if putAllowed request resp then some (Cache.store c request resp) else none

/-- The cache stored under a name, if any. -/
def CacheStorage.get (cs : CacheStorage) (name : Str) : Option Cache :=
  (cs.find? (fun g => g.1 = name)).map (fun g => g.2)

/-- The method `caches.open(name)`: the generation is created when it is absent. -/
def CacheStorage.openCache (cs : CacheStorage) (name : Str) : CacheStorage :=
  if cs.any (fun g => g.1 = name) then cs else cs ++ [(name, [])]

/-- The method `caches.keys()`. -/
def CacheStorage.keys (cs : CacheStorage) : List Str :=
  cs.map (fun g => g.1)

/-- The method `caches.delete(name)`. -/
def CacheStorage.delete (cs : CacheStorage) (name : Str) : CacheStorage :=
  cs.filter (fun g => g.1 ≠ name)

/-- The method `caches.match(request)`: the first generation, in creation order, that
holds a match answers. -/
def CacheStorage.matchRequest (cs : CacheStorage) (request : SwRequest) :
    Option NetResponse :=
  cs.findSome? (fun g => Cache.matchRequest g.2 request)

/-- The chain `caches.open(name).then((cache) => cache.put(request, response))`: the
generation is opened, and left as it is when `put` rejects. -/
def CacheStorage.putIn (cs : CacheStorage) (name : Str) (request : SwRequest)
    (resp : NetResponse) : CacheStorage :=
  (cs.openCache name).map (fun g =>
    if g.1 = name then
      match Cache.put g.2 request resp with
      | some c => (g.1, c)
      | none => g
    else g)

/-- A relative reference of the form `./name`, as all of `ASSETS` are, resolved
against the directory the worker script is served from (`base`, ending in `/`);
any other string is taken as an absolute URL. -/
def resolveUrl (base : Str) (reference : Str) : Str :=
  if startsWith reference "./".toList then base ++ reference.drop 2 else reference

/-- The requests `cache.addAll(urls)` makes: each URL is resolved and fetched with a
plain `GET` request, and the promise rejects (`none`) unless every URL has the scheme
`http` or `https` and every response arrives with an ok status other than 206 and
without `Vary: *`. -/
def fetchAll (base : Str) (net : Str → Option NetResponse) :
    List Str → Option (List (SwRequest × NetResponse))
  | [] => some []
  | reference :: rest =>
    let request : SwRequest :=
      { url := resolveUrl base reference, method := .get, headers := [] }
    match net request.url with
    | some r =>
      if r.ok && putAllowed request r then
        (fetchAll base net rest).map (fun es => (request, r) :: es)
      else none
    | none => none

/-- The method `cache.addAll(urls)`: the responses are stored only if all of them
arrived; otherwise the cache is left as it was. -/
def Cache.addAll (c : Cache) (base : Str) (urls : List Str)
    (net : Str → Option NetResponse) : Option Cache :=
  (fetchAll base net urls).map
    (fun fetched => fetched.foldl (fun c e => Cache.store c e.1 e.2) c)

/-- The constant `CACHE_NAME` of this release of the worker. The handlers below take
the generation name as a parameter, since it is what changes from one release to
the next. -/
def CACHE_NAME : Str := "crosspoint-sync-v1".toList

/-- The constant `ASSETS`. -/
def ASSETS : List Str :=
  ["./".toList, "./index.html".toList, "./style.css".toList, "./app.js".toList,
   "./manifest.json".toList]

/-- The test of line 34: the URL names one of the two device endpoints. -/
def isDeviceCall (url : Str) : Bool :=
  includes url uploadPath || includes url statusPath

/-- The `install` listener: `caches.open(CACHE_NAME).then((cache) => cache.addAll(ASSETS))`,
for a worker served from `base`, with `net` the outcome of fetching each URL. -/
def onInstall (base cacheName : Str) (cs : CacheStorage) (net : Str → Option NetResponse) :
    CacheStorage :=
  (cs.openCache cacheName).map (fun g =>
    if g.1 = cacheName then
      match Cache.addAll g.2 base ASSETS net with
      | some c => (g.1, c)
      | none => g
    else g)

/-- The `activate` listener: every key other than the generation name is deleted. -/
def onActivate (cacheName : Str) (cs : CacheStorage) : CacheStorage :=
  ((cs.keys).filter (fun k => k ≠ cacheName)).foldl CacheStorage.delete cs

/-- An operation the `fetch` listener performs on the cache or on the network. -/
inductive WorkerOp where
  | cachesMatch (url : Str)
  | networkFetch (url : Str)
  | cachePut (generation url : Str)
  deriving DecidableEq, Repr

/-- What handling one `fetch` event amounts to. -/
structure Handled where
  /-- Whether `event.respondWith` was called. -/
  responded : Bool
  /-- The response the promise given to `respondWith` resolves with. -/
  response : Option NetResponse
  /-- The operations performed, in order; `cachePut` is the call, which may reject. -/
  ops : List WorkerOp
  /-- The cache storage afterwards. -/
  store : CacheStorage
  deriving DecidableEq, Repr

/-- The `fetch` listener for `event.request`; `net` is what the network answers if
asked (`none`: the request fails). -/
def onFetch (cacheName : Str) (cs : CacheStorage) (request : SwRequest)
    (net : Option NetResponse) : Handled :=
  if isDeviceCall request.url then
    { responded := false, response := none, ops := [], store := cs }
  else
    match cs.matchRequest request with
    | some cached =>
      { responded := true, response := some cached, ops := [.cachesMatch request.url],
        store := cs }
    | none =>
      match net with
      | none =>
        { responded := true, response := none,
          ops := [.cachesMatch request.url, .networkFetch request.url], store := cs }
      | some response =>
        if response.status = 200 then
          { responded := true, response := some response,
            ops := [.cachesMatch request.url, .networkFetch request.url,
                    .cachePut cacheName request.url],
            store := cs.putIn cacheName request response }
        else
          { responded := true, response := some response,
            ops := [.cachesMatch request.url, .networkFetch request.url], store := cs }

/-- What the page gets for its request: the worker's answer when `respondWith` was
called, and otherwise the browser's own network request. -/
def pageReceives (cacheName : Str) (cs : CacheStorage) (request : SwRequest)
    (net : Option NetResponse) : Option NetResponse :=
  if (onFetch cacheName cs request net).responded then
    (onFetch cacheName cs request net).response
  else net

/-- The events the worker listens to. -/
inductive WorkerEvent where
  | install (net : Str → Option NetResponse)
  | activate
  | fetch (request : SwRequest) (net : Option NetResponse)

/-- The cache storage after one event, for a worker served from `base`. -/
def workerStep (base cacheName : Str) (cs : CacheStorage) : WorkerEvent → CacheStorage
  | .install net => onInstall base cacheName cs net
  | .activate => onActivate cacheName cs
  | .fetch request net => (onFetch cacheName cs request net).store

/-- The cache storage after a sequence of events. -/
def workerRun (base cacheName : Str) (cs : CacheStorage) (events : List WorkerEvent) :
    CacheStorage :=
  events.foldl (workerStep base cacheName) cs

/-- No stored request names a device endpoint. -/
def NoDeviceCalls (cs : CacheStorage) : Prop :=
  ∀ g ∈ cs, ∀ e ∈ g.2, isDeviceCall e.1.url = false

/-! ## Sample data -/

/-- A file named `A`. -/
def fileA : File := { name := "A", size := 10, blob := 1 }

/-- A file named `B`. -/
def fileB : File := { name := "B", size := 20, blob := 2 }

/-- A file named `C`. -/
def fileC : File := { name := "C", size := 30, blob := 3 }

/-- An address without a scheme. -/
def sampleIp : Str := "192.168.4.1".toList

/-- A page that is connected to `http://192.168.4.1` and has nothing queued. -/
def connectedPage : AppState :=
  { AppState.initial with deviceUrl := httpScheme ++ sampleIp, connected := true }

/-- A page that knows the address `http://192.168.4.1`, is not connected, and has
`A` and `B` queued. -/
def waitingPage : AppState :=
  { AppState.initial with deviceUrl := httpScheme ++ sampleIp,
                          queue := addFiles [] [fileA, fileB] }

/-- A response with the given status and the body `{"ready": true}`. -/
def readyResponse (status : Nat) : Response :=
  { status := status, body := some (.obj [("ready", .bool true)]) }

/-- A response with the given status and no JSON body. -/
def plainResponse (status : Nat) : Response :=
  { status := status, body := none }

/-- The directory a worker is served from. -/
def workerBase : Str := "https://sync.example/".toList

/-- A directory whose host name begins with `status`. -/
def statusHostBase : Str := "https://status.example.com/".toList

/-- A page's request for a shell file. -/
def shellRequest : SwRequest :=
  { url := "https://sync.example/app.js".toList, method := .get, headers := [] }

/-- A page's health check of a device. -/
def statusRequest : SwRequest :=
  { url := "http://192.168.4.1/status".toList, method := .get, headers := [] }

/-- A page's request for a file that is not part of the shell. -/
def extraRequest : SwRequest :=
  { url := "https://sync.example/icon.png".toList, method := .get, headers := [] }

/-- A network on which every request is answered with status 200. -/
def allOk : Str → Option NetResponse :=
  fun _ => some { status := 200, content := 1, vary := [] }

/-- The generation name of a later release. -/
def nextName : Str := "crosspoint-sync-v2".toList

/-- A life of the worker: install, activate, a shell file, a further file and a health
check fetched. -/
def sampleEvents : List WorkerEvent :=
  [.install allOk, .activate,
   .fetch shellRequest (some { status := 200, content := 5, vary := [] }),
   .fetch extraRequest (some { status := 200, content := 6, vary := [] }),
   .fetch statusRequest (some { status := 200, content := 9, vary := [] })]

end Crosspoint

/-! # Theorems -/

namespace Crosspoint

/-! ## The queue -/

theorem addFiles_eq_append (q : List QueueEntry) (fs : List File) :
    addFiles q fs = q ++ fs.map entryOf := by
  induction fs generalizing q with
  | nil => simp [addFiles]
  | cons f fs ih =>
    have h := ih (push q (entryOf f))
    simp only [addFiles, List.foldl_cons] at h ⊢
    rw [h]
    simp [push]

theorem spliceStart_of_nonneg (len : Nat) (i : Int) (h : 0 ≤ i) :
    spliceStart len (.int i) = min i.toNat len := by
  have h' : ¬ i < 0 := by omega
  simp [spliceStart, toIntegerOrInfinity, h']

theorem spliceStart_of_neg (len : Nat) (i : Int) (h : i < 0) :
    spliceStart len (.int i) = (max ((len : Int) + i) 0).toNat := by
  simp [spliceStart, toIntegerOrInfinity, h]

theorem splice_one_eq_eraseIdx {α : Type} (xs : List α) (start : JsNumber) :
    splice xs start 1 = xs.eraseIdx (spliceStart xs.length start) := by
  have hle : spliceStart xs.length start ≤ xs.length := by
    cases start with
    | nan => simp [spliceStart, toIntegerOrInfinity]
    | int i =>
      by_cases h : i < 0
      · rw [spliceStart_of_neg _ _ h]; omega
      · rw [spliceStart_of_nonneg _ _ (by omega)]; omega
  unfold splice
  simp only []
  rcases Nat.lt_or_ge (spliceStart xs.length start) xs.length with hlt | hge
  · have h1 : min 1 (xs.length - spliceStart xs.length start) = 1 := by omega
    rw [h1, List.eraseIdx_eq_take_drop_succ]
  · have h0 : spliceStart xs.length start = xs.length := by omega
    rw [h0, List.eraseIdx_of_length_le (Nat.le_refl _)]
    simp

/-- C5: `addFiles(fs)` turns the queue `q` into `q` followed by one entry per file of
`fs`, in the order of `fs`, each entry holding that file with its name and size. The
old entries stay in front unchanged, nothing is dropped as a duplicate, the length
grows by the length of `fs`, and the empty list changes nothing. -/
theorem addFiles_spec (q : List QueueEntry) (fs : List File) :
    addFiles q fs = q ++ fs.map (fun f => { file := f, name := f.name, size := f.size })
      ∧ (addFiles q fs).take q.length = q
      ∧ (addFiles q fs).drop q.length = fs.map entryOf
      ∧ (addFiles q fs).length = q.length + fs.length
      ∧ addFiles q [] = q := by
  have h := addFiles_eq_append q fs
  refine ⟨h, ?_, ?_, ?_, ?_⟩
  · rw [h]; simp
  · rw [h]; simp
  · rw [h]; simp
  · rfl

/-- C5, on an example: adding `[B, A, B]` to a queue that already holds `A` keeps all
four entries, duplicates included. -/
theorem addFiles_spec_witness :
    addFiles [entryOf fileA] [fileB, fileA, fileB]
      = [entryOf fileA, entryOf fileB, entryOf fileA, entryOf fileB] :=
  (addFiles_spec [entryOf fileA] [fileB, fileA, fileB]).1

/-- C4: for an index `i` with `0 <= i < length`, `removeFile(i)` removes exactly the
`i`-th entry: the length drops by one, the entries before `i` keep their place and
the entries after `i` move up by one, each one unchanged. -/
theorem removeFile_in_range (q : List QueueEntry) (i : Int) (h0 : 0 ≤ i)
    (h1 : i < q.length) :
    removeFile q (.int i) = q.eraseIdx i.toNat
      ∧ (removeFile q (.int i)).length + 1 = q.length
      ∧ (∀ j, j < i.toNat → (removeFile q (.int i))[j]? = q[j]?)
      ∧ (∀ j, i.toNat ≤ j → (removeFile q (.int i))[j]? = q[j + 1]?) := by
  have hs : spliceStart q.length (.int i) = i.toNat := by
    rw [spliceStart_of_nonneg _ _ h0]; omega
  have he : removeFile q (.int i) = q.eraseIdx i.toNat := by
    rw [removeFile, splice_one_eq_eraseIdx, hs]
  have hlt : i.toNat < q.length := by omega
  refine ⟨he, ?_, ?_, ?_⟩
  · rw [he, List.length_eraseIdx_of_lt hlt]; omega
  · intro j hj
    rw [he, List.getElem?_eraseIdx_of_lt _ _ _ hj]
  · intro j hj
    rw [he, List.getElem?_eraseIdx_of_ge _ _ _ hj]

/-- C4, on the example of the specification: `addFiles([A, B])` on an empty queue and
then `removeFile(0)` leave the single entry of `B`, with the name and size of `B`. -/
theorem removeFile_in_range_witness :
    (0 : Int) ≤ 0 ∧ (0 : Int) < (addFiles [] [fileA, fileB]).length
      ∧ removeFile (addFiles [] [fileA, fileB]) (.int 0)
          = [{ file := fileB, name := "B", size := 20 }] :=
  ⟨by decide, by decide,
   (removeFile_in_range (addFiles [] [fileA, fileB]) 0 (by decide) (by decide)).1.trans
     (by decide)⟩

/-- C3 fails as stated: on the queue `[A, B]` the index `NaN` removes `A`, the index
`-1` removes `B`, and the index `-5` removes `A`. -/
theorem removeFile_out_of_range_counterexample :
    removeFile [entryOf fileA, entryOf fileB] .nan = [entryOf fileB]
      ∧ removeFile [entryOf fileA, entryOf fileB] (.int (-1)) = [entryOf fileA]
      ∧ removeFile [entryOf fileA, entryOf fileB] (.int (-5)) = [entryOf fileB]
      ∧ removeFile [entryOf fileA, entryOf fileB] .nan ≠ [entryOf fileA, entryOf fileB] := by
  decide

/-- C3, amended: an index `i >= length` leaves the queue as it is. A negative index is
counted from the end, so `removeFile(i)` removes the entry at `max(length + i, 0)`,
and `NaN` is taken as 0, so the first entry is removed; for these two kinds of index
the queue is unchanged only when it is empty. -/
theorem removeFile_out_of_range (q : List QueueEntry) (i : Int) :
    ((q.length : Int) ≤ i → removeFile q (.int i) = q)
      ∧ (i < 0 → removeFile q (.int i) = q.eraseIdx (max ((q.length : Int) + i) 0).toNat)
      ∧ removeFile q .nan = q.eraseIdx 0
      ∧ (i < 0 → (removeFile q (.int i) = q ↔ q = []))
      ∧ (removeFile q .nan = q ↔ q = []) := by
  have hnan : removeFile q .nan = q.eraseIdx 0 := by
    rw [removeFile, splice_one_eq_eraseIdx]
    simp [spliceStart, toIntegerOrInfinity]
  have hneg : i < 0 →
      removeFile q (.int i) = q.eraseIdx (max ((q.length : Int) + i) 0).toNat := by
    intro h
    rw [removeFile, splice_one_eq_eraseIdx, spliceStart_of_neg _ _ h]
  have hfix : ∀ k, k < q.length ∨ q = [] → (q.eraseIdx k = q ↔ q = []) := by
    intro k hk
    constructor
    · intro h
      rcases hk with hk | hk
      · have := List.length_eraseIdx_of_lt hk
        rw [h] at this
        omega
      · exact hk
    · intro h
      subst h
      rfl
  refine ⟨?_, hneg, hnan, ?_, ?_⟩
  · intro h
    have h0 : 0 ≤ i := by omega
    rw [removeFile, splice_one_eq_eraseIdx, spliceStart_of_nonneg _ _ h0]
    apply List.eraseIdx_of_length_le
    omega
  · intro h
    rw [hneg h]
    apply hfix
    cases q with
    | nil => exact Or.inr rfl
    | cons a t =>
      left
      simp only [List.length_cons]
      push_cast
      omega
  · rw [hnan]
    apply hfix
    cases q with
    | nil => exact Or.inr rfl
    | cons a t => left; simp

/-- C3, amended, on examples: the index 5 leaves `[A, B]` alone, the index `-1` removes
its last entry. -/
theorem removeFile_out_of_range_witness :
    removeFile [entryOf fileA, entryOf fileB] (.int 5) = [entryOf fileA, entryOf fileB]
      ∧ removeFile [entryOf fileA, entryOf fileB] (.int (-1))
          = [entryOf fileA, entryOf fileB].eraseIdx 1 :=
  ⟨(removeFile_out_of_range [entryOf fileA, entryOf fileB] 5).1 (by decide),
   (removeFile_out_of_range [entryOf fileA, entryOf fileB] (-1)).2.1 (by decide)⟩

/-! ## Connecting -/

theorem startsWith_append_self (pre rest : Str) : startsWith (pre ++ rest) pre = true := by
  simp [startsWith]

theorem normalizeIp_has_scheme (ip : Str) :
    startsWith (normalizeIp ip) httpScheme = true
      ∨ startsWith (normalizeIp ip) httpsScheme = true := by
  unfold normalizeIp
  by_cases h1 : startsWith ip httpScheme = true
  · simp [h1]
  · by_cases h2 : startsWith ip httpsScheme = true
    · simp [h2]
    · simp only [Bool.not_eq_true] at h1 h2
      simp [h1, h2, startsWith_append_self]

theorem normalizeIp_of_scheme (ip : Str)
    (h : startsWith ip httpScheme = true ∨ startsWith ip httpsScheme = true) :
    normalizeIp ip = ip := by
  unfold normalizeIp
  rcases h with h | h <;> simp [h]

theorem attemptConnect_eq (s : AppState) (ip : Str) (r : FetchResult) (h : ip ≠ []) :
    attemptConnect s ip r = .ok
      (match r with
       | .rejected e => attemptConnectCatch (attemptConnectBegin s ip).1 e
       | .resolved resp =>
         if resp.ok then
           match resp.body with
           | none => attemptConnectCatch (attemptConnectBegin s ip).1 .syntaxError
           | some data =>
             match data.ready with
             | .error e => attemptConnectCatch (attemptConnectBegin s ip).1 e
             | .ok true => onConnected (attemptConnectBegin s ip).1 (normalizeIp ip)
             | .ok false => onConnectionFailed (attemptConnectBegin s ip).1 "Device not ready"
         else onConnectionFailed (attemptConnectBegin s ip).1 "Device not ready") := by
  have hne : ip.isEmpty = false := by
    cases ip with
    | nil => exact absurd rfl h
    | cons c t => rfl
  unfold attemptConnect
  simp only [hne, Bool.false_eq_true, if_false]
  cases r with
  | rejected e =>
    simp [attemptConnectTry, FetchResult.await, bind, Except.bind, attemptConnectBegin]
  | resolved resp =>
    by_cases hok : resp.ok = true
    · cases hb : resp.body with
      | none =>
        simp [attemptConnectTry, FetchResult.await, bind, Except.bind, attemptConnectBegin,
          hok, Response.json, hb]
      | some data =>
        cases hr : data.ready with
        | error e =>
          simp [attemptConnectTry, FetchResult.await, bind, Except.bind, attemptConnectBegin,
            hok, Response.json, hb, hr]
        | ok b =>
          cases b <;>
          simp [attemptConnectTry, FetchResult.await, bind, Except.bind, attemptConnectBegin,
            hok, Response.json, hb, hr, pure, Except.pure]
    · simp [attemptConnectTry, FetchResult.await, bind, Except.bind, attemptConnectBegin,
        hok, pure, Except.pure]

/-- C7: for a non-empty address, `attemptConnect` goes on with the address itself when
it begins with `http://` or `https://` and with `http://` put in front of it
otherwise; this is the value of `deviceUrl` and the base of the health-check URL, it
always begins with one of the two schemes, and normalising it again changes nothing. -/
theorem attemptConnect_base_url (s : AppState) (ip : Str) (r : FetchResult) (h : ip ≠ []) :
    (∃ s1, attemptConnect s ip r = .ok s1
        ∧ s1.deviceUrl = normalizeIp ip
        ∧ s1.sent = s.sent ++ [.getStatus (normalizeIp ip ++ statusPath)])
      ∧ (startsWith ip httpScheme = false → startsWith ip httpsScheme = false →
          normalizeIp ip = httpScheme ++ ip)
      ∧ (startsWith ip httpScheme = true ∨ startsWith ip httpsScheme = true →
          normalizeIp ip = ip)
      ∧ (startsWith (normalizeIp ip) httpScheme = true
          ∨ startsWith (normalizeIp ip) httpsScheme = true)
      ∧ normalizeIp (normalizeIp ip) = normalizeIp ip := by
  refine ⟨?_, ?_, normalizeIp_of_scheme ip, normalizeIp_has_scheme ip,
    normalizeIp_of_scheme _ (normalizeIp_has_scheme ip)⟩
  · refine ⟨_, attemptConnect_eq s ip r h, ?_, ?_⟩
    · cases r with
      | rejected e => rfl
      | resolved resp =>
        simp only []
        split
        · split
          · rfl
          · split <;> rfl
        · rfl
    · cases r with
      | rejected e => rfl
      | resolved resp =>
        simp only []
        split
        · split
          · rfl
          · split <;> rfl
        · rfl
  · intro h1 h2
    simp [normalizeIp, h1, h2]

/-- C7, on an example: for the address `192.168.4.1` the health check goes to
`http://192.168.4.1/status`. -/
theorem attemptConnect_base_url_witness :
    sampleIp ≠ [] ∧ normalizeIp sampleIp = "http://192.168.4.1".toList
      ∧ normalizeIp "https://reader.local".toList = "https://reader.local".toList :=
  ⟨by decide,
   ((attemptConnect_base_url AppState.initial sampleIp (.rejected .typeError)
      (by decide)).2.1 (by decide) (by decide)).trans (by decide),
   by decide⟩

theorem ready_error_iff (data : Json) (e : JsError) :
    data.ready = .error e ↔ data = .null ∧ e = .typeError := by
  cases data with
  | null =>
    simp only [Json.ready, true_and]
    constructor
    · intro h; injection h with h; exact h.symm
    · intro h; rw [h]
  | obj fields =>
    simp only [Json.ready]
    split <;> simp
  | bool b => simp [Json.ready]
  | num n => simp [Json.ready]
  | str t => simp [Json.ready]
  | arr items => simp [Json.ready]

theorem attemptConnect_rejected (s : AppState) (ip : Str) (e : JsError) (h : ip ≠ []) :
    attemptConnect s ip (.rejected e)
      = .ok (attemptConnectCatch (attemptConnectBegin s ip).1 e) := by
  rw [attemptConnect_eq s ip _ h]

theorem attemptConnect_not_ok (s : AppState) (ip : Str) (resp : Response) (h : ip ≠ [])
    (hok : resp.ok = false) :
    attemptConnect s ip (.resolved resp)
      = .ok (onConnectionFailed (attemptConnectBegin s ip).1 "Device not ready") := by
  rw [attemptConnect_eq s ip _ h]
  simp [hok]

theorem attemptConnect_undecodable (s : AppState) (ip : Str) (resp : Response) (h : ip ≠ [])
    (hok : resp.ok = true) (hb : resp.body = none) :
    attemptConnect s ip (.resolved resp)
      = .ok (attemptConnectCatch (attemptConnectBegin s ip).1 .syntaxError) := by
  rw [attemptConnect_eq s ip _ h]
  simp [hok, hb]

theorem attemptConnect_ready_throws (s : AppState) (ip : Str) (resp : Response) (data : Json)
    (e : JsError) (h : ip ≠ []) (hok : resp.ok = true) (hb : resp.body = some data)
    (hr : data.ready = .error e) :
    attemptConnect s ip (.resolved resp)
      = .ok (attemptConnectCatch (attemptConnectBegin s ip).1 e) := by
  rw [attemptConnect_eq s ip _ h]
  simp [hok, hb, hr]

theorem attemptConnect_ready_true (s : AppState) (ip : Str) (resp : Response) (data : Json)
    (h : ip ≠ []) (hok : resp.ok = true) (hb : resp.body = some data)
    (hr : data.ready = .ok true) :
    attemptConnect s ip (.resolved resp)
      = .ok (onConnected (attemptConnectBegin s ip).1 (normalizeIp ip)) := by
  rw [attemptConnect_eq s ip _ h]
  simp [hok, hb, hr]

theorem attemptConnect_ready_false (s : AppState) (ip : Str) (resp : Response) (data : Json)
    (h : ip ≠ []) (hok : resp.ok = true) (hb : resp.body = some data)
    (hr : data.ready = .ok false) :
    attemptConnect s ip (.resolved resp)
      = .ok (onConnectionFailed (attemptConnectBegin s ip).1 "Device not ready") := by
  rw [attemptConnect_eq s ip _ h]
  simp [hok, hb, hr]

/-- C6 fails as stated: a response with status 200 whose body is not valid JSON, or is
the JSON value `null`, leaves the page disconnected with the reason
`Connection failed`, not `Device not ready`. -/
theorem attemptConnect_outcome_counterexample :
    (attemptConnect AppState.initial sampleIp (.resolved (plainResponse 200))).toOption.map
        (fun s => (s.connected, s.statusText)) = some (false, "Connection failed")
      ∧ (attemptConnect AppState.initial sampleIp
          (.resolved { status := 200, body := some .null })).toOption.map
        (fun s => (s.connected, s.statusText)) = some (false, "Connection failed")
      ∧ "Connection failed" ≠ "Device not ready" := by
  refine ⟨by decide, by decide, by decide⟩

/-- C6, amended: for a non-empty address `attemptConnect` always resolves. The page is
connected afterwards (and the normalised address saved) exactly when the response
has an ok status and its decoded body has a truthy `ready`. A response without an ok
status, or with an ok status and a decoded body other than `null` in which `ready` is
not truthy, gives `Device not ready`. A response with an ok status whose body is not
valid JSON or is `null` gives `Connection failed`. An aborted request gives `Timeout`
and any other rejection `Connection failed`. In all these cases the page is left
disconnected and the saved address untouched. -/
theorem attemptConnect_outcome (s : AppState) (ip : Str) (r : FetchResult) (h : ip ≠ []) :
    ∃ s1, attemptConnect s ip r = .ok s1
      ∧ (s1.connected = true ↔
          ∃ resp data, r = .resolved resp ∧ resp.ok = true ∧ resp.body = some data
            ∧ data.ready = .ok true)
      ∧ (s1.connected = true →
          s1.savedIp = some (normalizeIp ip) ∧ s1.statusText = "Connected")
      ∧ (s1.connected = false → s1.savedIp = s.savedIp)
      ∧ (∀ resp, r = .resolved resp → resp.ok = false →
          s1.connected = false ∧ s1.statusText = "Device not ready")
      ∧ (∀ resp data, r = .resolved resp → resp.ok = true → resp.body = some data →
          data.ready = .ok false →
          s1.connected = false ∧ s1.statusText = "Device not ready")
      ∧ (∀ resp, r = .resolved resp → resp.ok = true →
          resp.body = none ∨ resp.body = some .null →
          s1.connected = false ∧ s1.statusText = "Connection failed")
      ∧ (r = .rejected .abortError → s1.connected = false ∧ s1.statusText = "Timeout")
      ∧ (∀ e, r = .rejected e → e ≠ .abortError →
          s1.connected = false ∧ s1.statusText = "Connection failed") := by
  cases r with
  | rejected e =>
    refine ⟨_, attemptConnect_rejected s ip e h, ?_, ?_, ?_, ?_, ?_, ?_, ?_, ?_⟩
    · simp [attemptConnectCatch, onConnectionFailed]
    · simp [attemptConnectCatch, onConnectionFailed]
    · intro _; rfl
    · intro resp hr; cases hr
    · intro resp data hr; cases hr
    · intro resp hr; cases hr
    · intro he
      injection he with he
      subst he
      exact ⟨rfl, rfl⟩
    · intro e2 he hne
      injection he with he
      subst he
      simp [attemptConnectCatch, onConnectionFailed, hne]
  | resolved resp =>
    have inj : ∀ resp2, FetchResult.resolved resp = FetchResult.resolved resp2 →
        resp2 = resp := by
      intro resp2 hr
      injection hr with hr
      exact hr.symm
    by_cases hok : resp.ok = true
    · cases hb : resp.body with
      | none =>
        refine ⟨_, attemptConnect_undecodable s ip resp h hok hb, ?_, ?_, ?_, ?_, ?_, ?_, ?_, ?_⟩
        · simp only [attemptConnectCatch, onConnectionFailed, Bool.false_eq_true, false_iff]
          rintro ⟨resp2, data2, hr, _, hb2, _⟩
          rw [inj _ hr, hb] at hb2
          cases hb2
        · simp [attemptConnectCatch, onConnectionFailed]
        · intro _; rfl
        · intro resp2 hr hf
          rw [inj _ hr, hok] at hf
          cases hf
        · intro resp2 data hr _ hb2
          rw [inj _ hr, hb] at hb2
          cases hb2
        · intro _ _ _ _
          exact ⟨rfl, rfl⟩
        · intro hr; cases hr
        · intro e hr; cases hr
      | some data =>
        have inj2 : ∀ resp2 data2, FetchResult.resolved resp = FetchResult.resolved resp2 →
            resp2.body = some data2 → data2 = data := by
          intro resp2 data2 hr hb2
          rw [inj _ hr, hb] at hb2
          injection hb2 with hb2
          exact hb2.symm
        cases hrd : data.ready with
        | error e =>
          have hnull := (ready_error_iff data e).1 hrd
          refine ⟨_, attemptConnect_ready_throws s ip resp data e h hok hb hrd,
            ?_, ?_, ?_, ?_, ?_, ?_, ?_, ?_⟩
          · simp only [attemptConnectCatch, onConnectionFailed, Bool.false_eq_true, false_iff]
            rintro ⟨resp2, data2, hr, _, hb2, hr2⟩
            rw [inj2 _ _ hr hb2, hrd] at hr2
            cases hr2
          · simp [attemptConnectCatch, onConnectionFailed]
          · intro _; rfl
          · intro resp2 hr hf
            rw [inj _ hr, hok] at hf
            cases hf
          · intro resp2 data2 hr _ hb2 hr2
            rw [inj2 _ _ hr hb2, hrd] at hr2
            cases hr2
          · intro _ _ _ _
            rw [hnull.2]
            exact ⟨rfl, rfl⟩
          · intro hr; cases hr
          · intro e2 hr; cases hr
        | ok b =>
          have hnn : data ≠ .null := by
            intro hn
            rw [hn] at hrd
            simp [Json.ready] at hrd
          have notnull : ∀ resp2, FetchResult.resolved resp = FetchResult.resolved resp2 →
              ¬ (resp2.body = none ∨ resp2.body = some .null) := by
            intro resp2 hr hb2
            rw [inj _ hr, hb] at hb2
            rcases hb2 with hb2 | hb2
            · cases hb2
            · injection hb2 with hb2
              exact hnn hb2
          cases b with
          | true =>
            refine ⟨_, attemptConnect_ready_true s ip resp data h hok hb hrd,
              ?_, ?_, ?_, ?_, ?_, ?_, ?_, ?_⟩
            · simp only [onConnected, true_iff]
              exact ⟨resp, data, rfl, hok, hb, hrd⟩
            · intro _; exact ⟨rfl, rfl⟩
            · intro hc; simp [onConnected] at hc
            · intro resp2 hr hf
              rw [inj _ hr, hok] at hf
              cases hf
            · intro resp2 data2 hr _ hb2 hr2
              rw [inj2 _ _ hr hb2, hrd] at hr2
              cases hr2
            · intro resp2 hr _ hb2
              exact absurd hb2 (notnull _ hr)
            · intro hr; cases hr
            · intro e2 hr; cases hr
          | false =>
            refine ⟨_, attemptConnect_ready_false s ip resp data h hok hb hrd,
              ?_, ?_, ?_, ?_, ?_, ?_, ?_, ?_⟩
            · simp only [onConnectionFailed, Bool.false_eq_true, false_iff]
              rintro ⟨resp2, data2, hr, _, hb2, hr2⟩
              rw [inj2 _ _ hr hb2, hrd] at hr2
              cases hr2
            · simp [onConnectionFailed]
            · intro _; rfl
            · intro _ _ _; exact ⟨rfl, rfl⟩
            · intro _ _ _ _ _ _; exact ⟨rfl, rfl⟩
            · intro resp2 hr _ hb2
              exact absurd hb2 (notnull _ hr)
            · intro hr; cases hr
            · intro e2 hr; cases hr
    · have hok2 : resp.ok = false := by simpa using hok
      refine ⟨_, attemptConnect_not_ok s ip resp h hok2, ?_, ?_, ?_, ?_, ?_, ?_, ?_, ?_⟩
      · simp only [onConnectionFailed, Bool.false_eq_true, false_iff]
        rintro ⟨resp2, data2, hr, hok3, _, _⟩
        rw [inj _ hr] at hok3
        exact hok hok3
      · simp [onConnectionFailed]
      · intro _; rfl
      · intro _ _ _; exact ⟨rfl, rfl⟩
      · intro _ _ _ _ _ _; exact ⟨rfl, rfl⟩
      · intro resp2 hr hok3 _
        rw [inj _ hr] at hok3
        exact absurd hok3 hok
      · intro hr; cases hr
      · intro e2 hr; cases hr

/-- C6, amended, on examples: a ready device connects the page and saves
`http://192.168.4.1`; an aborted request reports `Timeout`. -/
theorem attemptConnect_outcome_witness :
    sampleIp ≠ []
      ∧ (∃ s1, attemptConnect AppState.initial sampleIp (.resolved (readyResponse 200))
            = .ok s1 ∧ s1.connected = true
            ∧ s1.savedIp = some "http://192.168.4.1".toList)
      ∧ (∃ s1, attemptConnect AppState.initial sampleIp (.rejected .abortError) = .ok s1
            ∧ s1.connected = false ∧ s1.statusText = "Timeout") := by
  refine ⟨by decide, ?_, ?_⟩
  · obtain ⟨s1, h1, h2, h3, _⟩ :=
      attemptConnect_outcome AppState.initial sampleIp (.resolved (readyResponse 200))
        (by decide)
    have hc : s1.connected = true :=
      h2.2 ⟨readyResponse 200, .obj [("ready", .bool true)], rfl, by decide, rfl, rfl⟩
    exact ⟨s1, h1, hc, (h3 hc).1.trans (by decide)⟩
  · obtain ⟨s1, h1, _, _, _, _, _, _, h8, _⟩ :=
      attemptConnect_outcome AppState.initial sampleIp (.rejected .abortError) (by decide)
    exact ⟨s1, h1, h8 rfl⟩

/-! ## One sync pass -/

theorem drop_of_getElem? {α : Type} (l : List α) (i : Nat) (a : α) (h : l[i]? = some a) :
    l.drop i = a :: l.drop (i + 1) := by
  obtain ⟨hlt, he⟩ := List.getElem?_eq_some.1 h
  rw [List.drop_eq_getElem_cons hlt, he]

theorem run_cons (s : AppState) (e : Event) (es : List Event) :
    run s (e :: es) = run (step s e) es := rfl

/-- The result entry a pass records for a queue entry and the outcome of its upload. -/
theorem uploadSucceeded_iff (o : FetchResult) :
    uploadSucceeded o = true
      ↔ ∃ resp, o = .resolved resp ∧ 200 ≤ resp.status ∧ resp.status ≤ 299 := by
  cases o with
  | rejected e => simp [uploadSucceeded]
  | resolved resp =>
    simp only [uploadSucceeded, Response.ok, Bool.and_eq_true, decide_eq_true_eq]
    constructor
    · intro h; exact ⟨resp, rfl, h⟩
    · rintro ⟨resp2, hr, h⟩
      injection hr with hr
      rw [hr]
      exact h

/-- A single suspended pass at index `i`, fed the outcomes of its remaining uploads,
uploads the remaining entries in order, shows the full log and empties the queue. -/
theorem run_single_pass (outcomes : List FetchResult) :
    ∀ (s : AppState) (i : Nat) (results : List UploadResult) (item : QueueEntry),
      s.queue[i]? = some item →
      s.passes = [{ totalFiles := s.queue.length, i := i, results := results, item := item }] →
      outcomes.length = s.queue.length - i →
      (run s (outcomes.map (Event.uploadSettled 0))).sent
          = s.sent ++ (s.queue.drop (i + 1)).map (uploadRequest s.deviceUrl)
        ∧ (run s (outcomes.map (Event.uploadSettled 0))).history
          = some (results ++ List.zipWith
              (fun e o => { name := e.name, success := uploadSucceeded o })
              (s.queue.drop i) outcomes)
        ∧ (run s (outcomes.map (Event.uploadSettled 0))).queue = []
        ∧ (run s (outcomes.map (Event.uploadSettled 0))).passes = []
        ∧ (run s (outcomes.map (Event.uploadSettled 0))).uncaught = s.uncaught := by
  induction outcomes with
  | nil =>
    intro s i results item hitem _ hlen
    obtain ⟨hlt, _⟩ := List.getElem?_eq_some.1 hitem
    simp only [List.length_nil] at hlen
    omega
  | cons o os ih =>
    intro s i results item hitem hp hlen
    obtain ⟨hlt, _⟩ := List.getElem?_eq_some.1 hitem
    simp only [List.length_cons] at hlen
    have hdrop := drop_of_getElem? s.queue i item hitem
    rw [List.map_cons, run_cons]
    have hstep : step s (.uploadSettled 0 o)
        = syncLoop { s with passes := [] } s.queue.length (i + 1)
            (push results { name := item.name, success := uploadSucceeded o }) := by
      simp [step, resumeSync, hp]
    rw [hstep, hdrop]
    by_cases hnext : i + 1 < s.queue.length
    · have hget : s.queue[i + 1]? = some (s.queue[i + 1]) := List.getElem?_eq_getElem hnext
      have hloop : syncLoop { s with passes := [] } s.queue.length (i + 1)
            (push results { name := item.name, success := uploadSucceeded o })
          = { s with
                sent := s.sent ++ [uploadRequest s.deviceUrl (s.queue[i + 1])],
                passes := [{ totalFiles := s.queue.length, i := i + 1,
                             results := push results
                               { name := item.name, success := uploadSucceeded o },
                             item := s.queue[i + 1] }] } := by
        simp [syncLoop, hnext]
      rw [hloop]
      have h := ih { s with
                sent := s.sent ++ [uploadRequest s.deviceUrl (s.queue[i + 1])],
                passes := [{ totalFiles := s.queue.length, i := i + 1,
                             results := push results
                               { name := item.name, success := uploadSucceeded o },
                             item := s.queue[i + 1] }] }
              (i + 1) (push results { name := item.name, success := uploadSucceeded o })
              (s.queue[i + 1]) hget rfl (by simp only []; omega)
      obtain ⟨h1, h2, h3, h4, h5⟩ := h
      refine ⟨?_, ?_, h3, h4, h5⟩
      · rw [h1]
        simp only []
        rw [drop_of_getElem? s.queue (i + 1) _ hget]
        simp only [List.map_cons, List.append_assoc, List.singleton_append]
      · rw [h2]
        simp [push]
    · have hos : os = [] := by
        apply List.eq_nil_of_length_eq_zero
        omega
      have hloop : syncLoop { s with passes := [] } s.queue.length (i + 1)
            (push results { name := item.name, success := uploadSucceeded o })
          = { s with passes := [], queue := [],
                     history := some (push results
                       { name := item.name, success := uploadSucceeded o }) } := by
        simp [syncLoop, hnext]
      rw [hloop, hos]
      have hnil : s.queue.drop (i + 1) = [] := List.drop_of_length_le (by omega)
      simp [run, hnil, push]

/-- C1: on a connected page with `n >= 1` queued entries and no pass in flight, a pass
fed one outcome per upload issues exactly `n` requests, the `i`-th of which is a
`POST` to `deviceUrl + '/upload'` carrying the file and the name of the `i`-th queue
entry, and ends by showing a log of `n` results, the `i`-th of which has the name of
the `i`-th entry and `success` true exactly when the `i`-th upload resolved with a
status in 200-299; a failed upload does not stop the pass; the queue is empty
afterwards and nothing is thrown. -/
theorem syncPass_spec (s : AppState) (outcomes : List FetchResult)
    (hq : 1 ≤ s.queue.length) (hc : s.connected = true) (hp : s.passes = [])
    (hlen : outcomes.length = s.queue.length) :
    (syncPass s outcomes).sent
        = s.sent ++ s.queue.map
            (fun e => Request.postUpload (s.deviceUrl ++ "/upload".toList) e.name e.file)
      ∧ (syncPass s outcomes).sent.length = s.sent.length + s.queue.length
      ∧ (∀ (i : Nat) (e : QueueEntry), s.queue[i]? = some e →
          (syncPass s outcomes).sent[s.sent.length + i]?
            = some (Request.postUpload (s.deviceUrl ++ "/upload".toList) e.name e.file))
      ∧ (∃ log, (syncPass s outcomes).history = some log
          ∧ log = List.zipWith (fun e o => { name := e.name, success := uploadSucceeded o })
              s.queue outcomes
          ∧ log.length = s.queue.length
          ∧ ∀ (i : Nat) (e : QueueEntry) (o : FetchResult),
              s.queue[i]? = some e → outcomes[i]? = some o →
              log[i]? = some ({ name := e.name, success := uploadSucceeded o } : UploadResult)
                ∧ (uploadSucceeded o = true
                    ↔ ∃ resp, o = .resolved resp ∧ 200 ≤ resp.status ∧ resp.status ≤ 299))
      ∧ (syncPass s outcomes).queue = []
      ∧ (syncPass s outcomes).passes = []
      ∧ (syncPass s outcomes).uncaught = s.uncaught := by
  have hget : s.queue[0]? = some (s.queue[0]) := List.getElem?_eq_getElem (by omega)
  have hne : ¬ s.queue.length = 0 := by omega
  have hstart : syncFiles s
      = { s with sent := s.sent ++ [uploadRequest s.deviceUrl (s.queue[0])],
                 passes := [{ totalFiles := s.queue.length, i := 0, results := [],
                              item := s.queue[0] }] } := by
    have hpos : 0 < s.queue.length := by omega
    simp [syncFiles, syncLoop, hc, hp, hne, hpos]
  have h := run_single_pass outcomes
    { s with sent := s.sent ++ [uploadRequest s.deviceUrl (s.queue[0])],
             passes := [{ totalFiles := s.queue.length, i := 0, results := [],
                          item := s.queue[0] }] }
    0 [] (s.queue[0]) hget rfl (by simp only []; omega)
  have e0 : syncPass s outcomes
      = run (syncFiles s) (outcomes.map (Event.uploadSettled 0)) := rfl
  rw [hstart] at e0
  rw [← e0] at h
  obtain ⟨h1, h2, h3, h4, h5⟩ := h
  have hsent : (syncPass s outcomes).sent
      = s.sent ++ s.queue.map
          (fun e => Request.postUpload (s.deviceUrl ++ "/upload".toList) e.name e.file) := by
    rw [h1]
    simp only []
    have hd := drop_of_getElem? s.queue 0 _ hget
    simp only [List.drop_zero] at hd
    rw [List.append_assoc]
    congr 1
    conv => rhs; rw [hd]
    simp only [List.map_cons, List.singleton_append, Nat.zero_add]
    rfl
  refine ⟨hsent, ?_, ?_, ?_, h3, h4, h5⟩
  · rw [hsent]
    simp
  · intro i e he
    rw [hsent, List.getElem?_append_right (Nat.le_add_right _ _)]
    simp [he]
  · refine ⟨_, h2, by simp, by simp [hlen], ?_⟩
    intro i e o he ho
    refine ⟨?_, uploadSucceeded_iff o⟩
    simp [List.getElem?_zipWith, he, ho]

/-- C1, on the example of the specification: the queue `[A, B, C]` with the upload of
`B` answered by status 500 sends the three files in order to
`http://192.168.4.1/upload`, gives the log `[(A, true), (B, false), (C, true)]` and
leaves an empty queue. -/
theorem syncPass_spec_witness :
    (syncPass { connectedPage with queue := addFiles [] [fileA, fileB, fileC] }
        [.resolved (plainResponse 200), .resolved (plainResponse 500),
         .resolved (plainResponse 200)]).sent
        = [.postUpload "http://192.168.4.1/upload".toList "A"
             { name := "A", size := 10, blob := 1 },
           .postUpload "http://192.168.4.1/upload".toList "B"
             { name := "B", size := 20, blob := 2 },
           .postUpload "http://192.168.4.1/upload".toList "C"
             { name := "C", size := 30, blob := 3 }]
      ∧ (syncPass { connectedPage with queue := addFiles [] [fileA, fileB, fileC] }
        [.resolved (plainResponse 200), .resolved (plainResponse 500),
         .resolved (plainResponse 200)]).history
        = some [{ name := "A", success := true }, { name := "B", success := false },
                { name := "C", success := true }]
      ∧ (syncPass { connectedPage with queue := addFiles [] [fileA, fileB, fileC] }
        [.resolved (plainResponse 200), .resolved (plainResponse 500),
         .resolved (plainResponse 200)]).queue = [] := by
  have h := syncPass_spec { connectedPage with queue := addFiles [] [fileA, fileB, fileC] }
    [.resolved (plainResponse 200), .resolved (plainResponse 500),
     .resolved (plainResponse 200)] (by decide) (by decide) (by decide) (by decide)
  obtain ⟨h0, _, _, ⟨log, h1, h2, _⟩, h3, _⟩ := h
  refine ⟨?_, ?_, h3⟩
  · rw [h0]
    decide
  · rw [h1, h2]
    decide

/-! ## A second call of `syncFiles` -/

/-- C2 fails as stated. Two polls are started ten seconds apart while the page is
disconnected and both are answered `ready`: each one calls `syncFiles`, the second
while the first pass is suspended at the upload of `A`, and `A` is uploaded twice by
two passes in flight. When the first pass then finishes before the second, the
second one throws on the emptied queue; without the second poll nothing is thrown. -/
theorem syncFiles_reentry_counterexample :
    (run waitingPage
        [.pollTimer, .pollTimer, .pollSettled (.resolved (readyResponse 200)),
         .pollSettled (.resolved (readyResponse 200))]).sent.count
        (uploadRequest (httpScheme ++ sampleIp) (entryOf fileA)) = 2
      ∧ (run waitingPage
        [.pollTimer, .pollTimer, .pollSettled (.resolved (readyResponse 200)),
         .pollSettled (.resolved (readyResponse 200))]).passes.length = 2
      ∧ (run waitingPage
        [.pollTimer, .pollTimer, .pollSettled (.resolved (readyResponse 200)),
         .pollSettled (.resolved (readyResponse 200)),
         .uploadSettled 0 (.resolved (plainResponse 200)),
         .uploadSettled 1 (.resolved (plainResponse 200)),
         .uploadSettled 0 (.resolved (plainResponse 200))]).uncaught = [.typeError]
      ∧ (run waitingPage
        [.pollTimer, .pollSettled (.resolved (readyResponse 200)),
         .uploadSettled 0 (.resolved (plainResponse 200)),
         .uploadSettled 0 (.resolved (plainResponse 200))]).uncaught = [] := by
  refine ⟨by decide, by decide, by decide, by decide⟩

/-- C2, amended: `syncFiles` does not look at the passes in flight. A call changes
nothing when the queue is empty or the page is not connected. Otherwise, whatever
passes are suspended, it starts one more: it issues an upload of the first queue
entry and suspends next to the others, the rest of the state unchanged. A poll that
is answered `ready` while entries are queued makes exactly such a call. -/
theorem syncFiles_no_guard (s : AppState) :
    (s.queue = [] ∨ s.connected = false → syncFiles s = s)
      ∧ (∀ item rest, s.queue = item :: rest → s.connected = true →
          syncFiles s
            = { s with sent := s.sent ++ [uploadRequest s.deviceUrl item],
                       passes := s.passes ++ [{ totalFiles := s.queue.length, i := 0,
                                                results := [], item := item }] })
      ∧ (∀ resp data, s.polls ≠ 0 → s.queue ≠ [] → resp.ok = true →
          resp.body = some data → data.ready = .ok true →
          backgroundPollSettled s (.resolved resp)
            = syncFiles (onConnected { s with polls := s.polls - 1 } s.deviceUrl)) := by
  refine ⟨?_, ?_, ?_⟩
  · intro h
    rcases h with h | h
    · simp [syncFiles, h]
    · simp [syncFiles, h]
  · intro item rest hq hc
    simp [syncFiles, syncLoop, hq, hc]
  · intro resp data hp hq hok hb hr
    have hlen : 0 < s.queue.length := List.length_pos.2 hq
    simp [backgroundPollSettled, backgroundPollTry, FetchResult.await, bind, Except.bind,
      Response.json, hp, hok, hb, hr, onConnected, hlen, pure, Except.pure]

/-- C2, amended, on an example: with `A` and `B` queued and a pass suspended at the
upload of `A`, a second call issues the upload of `A` again. -/
theorem syncFiles_no_guard_witness :
    (syncFiles { connectedPage with queue := addFiles [] [fileA, fileB] }).passes.length = 1
      ∧ (syncFiles (syncFiles
          { connectedPage with queue := addFiles [] [fileA, fileB] })).sent
        = [uploadRequest (httpScheme ++ sampleIp) (entryOf fileA),
           uploadRequest (httpScheme ++ sampleIp) (entryOf fileA)] := by
  refine ⟨by decide, ?_⟩
  rw [(syncFiles_no_guard
        (syncFiles { connectedPage with queue := addFiles [] [fileA, fileB] })).2.1
        (entryOf fileA) [entryOf fileB] (by decide) (by decide)]
  decide

/-! ## The service worker: what the cache can hold -/

theorem mem_store (c : Cache) (request : SwRequest) (resp : NetResponse)
    (e : SwRequest × NetResponse) (h : e ∈ Cache.store c request resp) :
    e ∈ c ∨ e = (request, resp) := by
  simp only [Cache.store, List.mem_append, List.mem_filter, List.mem_singleton] at h
  rcases h with h | h
  · exact Or.inl h.1
  · exact Or.inr h

theorem mem_foldl_store (fetched : List (SwRequest × NetResponse)) :
    ∀ (c : Cache) (e : SwRequest × NetResponse),
      e ∈ fetched.foldl (fun c e => Cache.store c e.1 e.2) c → e ∈ c ∨ e ∈ fetched := by
  induction fetched with
  | nil => intro c e h; exact Or.inl h
  | cons f fs ih =>
    intro c e h
    rw [List.foldl_cons] at h
    rcases ih _ _ h with h1 | h1
    · rcases mem_store _ _ _ _ h1 with h2 | h2
      · exact Or.inl h2
      · right
        rw [h2]
        exact List.mem_cons_self _ _
    · exact Or.inr (List.mem_cons_of_mem _ h1)

theorem fetchAll_urls (base : Str) (net : Str → Option NetResponse) (urls : List Str) :
    ∀ fetched, fetchAll base net urls = some fetched →
      ∀ e ∈ fetched, ∃ u ∈ urls, e.1.url = resolveUrl base u := by
  induction urls with
  | nil =>
    intro fetched h e he
    simp only [fetchAll, Option.some.injEq] at h
    rw [← h] at he
    cases he
  | cons u us ih =>
    intro fetched h e he
    simp only [fetchAll] at h
    cases hn : net (resolveUrl base u) with
    | none => rw [hn] at h; cases h
    | some r =>
      rw [hn] at h
      simp only [] at h
      split at h
      · cases hf : fetchAll base net us with
        | none => rw [hf] at h; cases h
        | some es =>
          rw [hf] at h
          simp only [Option.map_some', Option.some.injEq] at h
          rw [← h] at he
          rcases List.mem_cons.1 he with he | he
          · rw [he]
            exact ⟨u, List.mem_cons_self _ _, rfl⟩
          · obtain ⟨v, hv, hev⟩ := ih es hf e he
            exact ⟨v, List.mem_cons_of_mem _ hv, hev⟩
      · cases h

/-- A needle without `/` that begins before a `/` of the text ends before it. -/
theorem isPrefixOf_before_slash (hay : Str) :
    ∀ (needle rest other : Str), '/' ∉ needle →
      needle.isPrefixOf (hay ++ '/' :: rest) = true →
      needle.isPrefixOf (hay ++ '/' :: other) = true := by
  induction hay with
  | nil =>
    intro needle rest other hn h
    cases needle with
    | nil => simp
    | cons d n =>
      have hd : d ≠ '/' := fun hd => hn (by rw [hd]; exact List.mem_cons_self _ _)
      simp [List.isPrefixOf, hd] at h
  | cons x xs ih =>
    intro needle rest other hn h
    cases needle with
    | nil => simp
    | cons d n =>
      have hn2 : '/' ∉ n := fun hin => hn (List.mem_cons_of_mem _ hin)
      simp only [List.cons_append, List.isPrefixOf, Bool.and_eq_true] at h ⊢
      exact ⟨h.1, ih n rest other hn2 h.2⟩

/-- A needle whose only `/` is its first character, absent from a directory URL and
from `/` followed by a file name, is absent from the directory URL followed by the
file name. -/
theorem includes_across_slash (first : Char) (needle name : Str) (hn : '/' ∉ needle)
    (hname : includes ('/' :: name) (first :: needle) = false) :
    ∀ dir : Str, includes (dir ++ ['/']) (first :: needle) = false →
      includes (dir ++ '/' :: name) (first :: needle) = false := by
  intro dir
  induction dir with
  | nil => intro _; exact hname
  | cons x xs ih =>
    intro h
    simp only [List.cons_append, includes, Bool.or_eq_false_iff] at h ⊢
    refine ⟨?_, ih h.2⟩
    cases hp : (first :: needle).isPrefixOf (x :: (xs ++ '/' :: name)) with
    | false => rfl
    | true =>
      exfalso
      simp only [List.isPrefixOf, Bool.and_eq_true] at hp
      have h2 := isPrefixOf_before_slash xs needle name [] hn hp.2
      have : (first :: needle).isPrefixOf (x :: (xs ++ ['/'])) = true := by
        simp only [List.isPrefixOf, Bool.and_eq_true]
        exact ⟨hp.1, h2⟩
      have hc : true = false := this.symm.trans h.1
      cases hc

theorem resolved_assets_clean (dir : Str)
    (h : isDeviceCall (dir ++ "/".toList) = false) :
    ∀ a ∈ ASSETS, isDeviceCall (resolveUrl (dir ++ "/".toList) a) = false := by
  simp only [isDeviceCall, Bool.or_eq_false_iff] at h
  have key : ∀ name : Str,
      includes ('/' :: name) uploadPath = false → includes ('/' :: name) statusPath = false →
      isDeviceCall (dir ++ '/' :: name) = false := by
    intro name h1 h2
    simp only [isDeviceCall, Bool.or_eq_false_iff]
    exact ⟨includes_across_slash '/' "upload".toList name (by decide) h1 dir h.1,
           includes_across_slash '/' "status".toList name (by decide) h2 dir h.2⟩
  have res : ∀ name : Str, (dir ++ "/".toList) ++ name = dir ++ '/' :: name := by
    intro name
    simp
  intro a ha
  simp only [ASSETS, List.mem_cons, List.mem_singleton, List.not_mem_nil, or_false] at ha
  rcases ha with ha | ha | ha | ha | ha <;> subst ha
  · exact (congrArg isDeviceCall (res [])).trans (key [] (by decide) (by decide))
  · exact (congrArg isDeviceCall (res "index.html".toList)).trans
      (key _ (by decide) (by decide))
  · exact (congrArg isDeviceCall (res "style.css".toList)).trans
      (key _ (by decide) (by decide))
  · exact (congrArg isDeviceCall (res "app.js".toList)).trans
      (key _ (by decide) (by decide))
  · exact (congrArg isDeviceCall (res "manifest.json".toList)).trans
      (key _ (by decide) (by decide))

theorem noDeviceCalls_open (cs : CacheStorage) (name : Str) (h : NoDeviceCalls cs) :
    NoDeviceCalls (cs.openCache name) := by
  unfold CacheStorage.openCache
  split
  · exact h
  · intro g hg e he
    rcases List.mem_append.1 hg with hg | hg
    · exact h g hg e he
    · simp only [List.mem_singleton] at hg
      rw [hg] at he
      cases he

theorem noDeviceCalls_delete (cs : CacheStorage) (name : Str) (h : NoDeviceCalls cs) :
    NoDeviceCalls (cs.delete name) := by
  intro g hg e he
  exact h g (List.mem_of_mem_filter hg) e he

theorem noDeviceCalls_foldl_delete (names : List Str) :
    ∀ cs, NoDeviceCalls cs → NoDeviceCalls (names.foldl CacheStorage.delete cs) := by
  induction names with
  | nil => intro cs h; exact h
  | cons n ns ih =>
    intro cs h
    exact ih _ (noDeviceCalls_delete cs n h)

theorem noDeviceCalls_putIn (cs : CacheStorage) (name : Str) (request : SwRequest)
    (resp : NetResponse) (h : NoDeviceCalls cs) (hu : isDeviceCall request.url = false) :
    NoDeviceCalls (cs.putIn name request resp) := by
  intro g hg e he
  simp only [CacheStorage.putIn, List.mem_map] at hg
  obtain ⟨g0, hg0, hgg⟩ := hg
  have h0 := noDeviceCalls_open cs name h g0 hg0
  by_cases hn : g0.1 = name
  · rw [if_pos hn] at hgg
    cases hp : Cache.put g0.2 request resp with
    | none =>
      rw [hp] at hgg
      rw [← hgg] at he
      exact h0 e he
    | some c =>
      rw [hp] at hgg
      rw [← hgg] at he
      simp only [Cache.put] at hp
      split at hp
      · injection hp with hp
        rw [← hp] at he
        rcases mem_store _ _ _ _ he with he | he
        · exact h0 e he
        · rw [he]
          exact hu
      · cases hp
  · rw [if_neg hn] at hgg
    rw [← hgg] at he
    exact h0 e he

theorem noDeviceCalls_install (base cacheName : Str) (cs : CacheStorage)
    (net : Str → Option NetResponse)
    (hassets : ∀ a ∈ ASSETS, isDeviceCall (resolveUrl base a) = false)
    (h : NoDeviceCalls cs) :
    NoDeviceCalls (onInstall base cacheName cs net) := by
  intro g hg e he
  simp only [onInstall, List.mem_map] at hg
  obtain ⟨g0, hg0, hgg⟩ := hg
  have h0 := noDeviceCalls_open cs cacheName h g0 hg0
  by_cases hn : g0.1 = cacheName
  · rw [if_pos hn] at hgg
    cases ha : Cache.addAll g0.2 base ASSETS net with
    | none =>
      rw [ha] at hgg
      rw [← hgg] at he
      exact h0 e he
    | some c =>
      rw [ha] at hgg
      rw [← hgg] at he
      simp only [Cache.addAll, Option.map_eq_some'] at ha
      obtain ⟨fetched, hf, hc⟩ := ha
      rw [← hc] at he
      rcases mem_foldl_store fetched _ _ he with he | he
      · exact h0 e he
      · obtain ⟨u, hu, heu⟩ := fetchAll_urls base net ASSETS fetched hf e he
        rw [heu]
        exact hassets u hu
  · rw [if_neg hn] at hgg
    rw [← hgg] at he
    exact h0 e he

theorem onFetch_device_call (cacheName : Str) (cs : CacheStorage) (request : SwRequest)
    (net : Option NetResponse) (h : isDeviceCall request.url = true) :
    onFetch cacheName cs request net
      = { responded := false, response := none, ops := [], store := cs } := by
  simp [onFetch, h]

theorem noDeviceCalls_fetch (cacheName : Str) (cs : CacheStorage) (request : SwRequest)
    (net : Option NetResponse) (h : NoDeviceCalls cs) :
    NoDeviceCalls (onFetch cacheName cs request net).store := by
  by_cases hd : isDeviceCall request.url = true
  · rw [onFetch_device_call _ _ _ _ hd]
    exact h
  · have hd2 : isDeviceCall request.url = false := by simpa using hd
    unfold onFetch
    rw [if_neg hd]
    split
    · exact h
    · split
      · exact h
      · split
        · exact noDeviceCalls_putIn cs cacheName request _ h hd2
        · exact h

theorem noDeviceCalls_run (base cacheName : Str) (events : List WorkerEvent)
    (hassets : ∀ a ∈ ASSETS, isDeviceCall (resolveUrl base a) = false) :
    ∀ cs, NoDeviceCalls cs → NoDeviceCalls (workerRun base cacheName cs events) := by
  induction events with
  | nil => intro cs h; exact h
  | cons ev evs ih =>
    intro cs h
    apply ih
    cases ev with
    | install net => exact noDeviceCalls_install base cacheName cs net hassets h
    | activate => exact noDeviceCalls_foldl_delete _ cs h
    | fetch request net => exact noDeviceCalls_fetch cacheName cs request net h

/-- C8 fails as stated: a worker served from `https://status.example.com/` stores its
shell files at install, and the URL of each of them contains `/status`. -/
theorem cache_excludes_device_calls_counterexample :
    (workerRun statusHostBase CACHE_NAME [] [.install allOk]).get CACHE_NAME
        = some
          [({ url := "https://status.example.com/".toList, method := .get, headers := [] },
              { status := 200, content := 1, vary := [] }),
           ({ url := "https://status.example.com/index.html".toList, method := .get,
              headers := [] }, { status := 200, content := 1, vary := [] }),
           ({ url := "https://status.example.com/style.css".toList, method := .get,
              headers := [] }, { status := 200, content := 1, vary := [] }),
           ({ url := "https://status.example.com/app.js".toList, method := .get,
              headers := [] }, { status := 200, content := 1, vary := [] }),
           ({ url := "https://status.example.com/manifest.json".toList, method := .get,
              headers := [] }, { status := 200, content := 1, vary := [] })]
      ∧ includes "https://status.example.com/index.html".toList "/status".toList = true := by
  refine ⟨by decide, by decide⟩

/-- C8, amended: when the URL of the directory the worker is served from contains
neither `/status` nor `/upload`, then starting from an empty cache storage, after any
sequence of `install`, `activate` and `fetch` events, no stored request has a URL that
contains `/status` or `/upload`. Wherever the worker is served from, for a request
whose URL contains `/status` or `/upload` the `fetch` listener returns before
`respondWith`: it performs no cache or network operation, leaves the cache storage as
it is, and the request is answered by the network. -/
theorem cache_excludes_device_calls (dir cacheName : Str) (events : List WorkerEvent) :
    (includes (dir ++ "/".toList) "/status".toList = false →
      includes (dir ++ "/".toList) "/upload".toList = false →
      ∀ g ∈ workerRun (dir ++ "/".toList) cacheName [] events, ∀ e ∈ g.2,
        includes e.1.url "/status".toList = false ∧ includes e.1.url "/upload".toList = false)
      ∧ (∀ cs request net,
          includes request.url "/status".toList = true
            ∨ includes request.url "/upload".toList = true →
          (onFetch cacheName cs request net).ops = []
            ∧ (onFetch cacheName cs request net).store = cs
            ∧ (onFetch cacheName cs request net).responded = false
            ∧ pageReceives cacheName cs request net = net) := by
  refine ⟨?_, ?_⟩
  · intro hs hu g hg e he
    have hbase : isDeviceCall (dir ++ "/".toList) = false := by
      simp only [isDeviceCall, Bool.or_eq_false_iff]
      exact ⟨hu, hs⟩
    have hinv : NoDeviceCalls (workerRun (dir ++ "/".toList) cacheName [] events) :=
      noDeviceCalls_run _ cacheName events (resolved_assets_clean dir hbase) []
        (by intro g hg; cases hg)
    have := hinv g hg e he
    simp only [isDeviceCall, Bool.or_eq_false_iff] at this
    exact ⟨this.2, this.1⟩
  · intro cs request net h
    have hdev : isDeviceCall request.url = true := by
      rcases h with h | h
      · simp only [isDeviceCall, Bool.or_eq_true]
        exact Or.inr h
      · simp only [isDeviceCall, Bool.or_eq_true]
        exact Or.inl h
    have hf := onFetch_device_call cacheName cs request net hdev
    refine ⟨by rw [hf], by rw [hf], by rw [hf], ?_⟩
    simp [pageReceives, hf]

/-- C8, amended, on an example: a worker served from `https://sync.example/` holds,
after install, activate and three fetches, the five shell files and `icon.png` and
nothing else, and a further health check touches nothing. -/
theorem cache_excludes_device_calls_witness :
    (workerRun workerBase CACHE_NAME [] sampleEvents).map
        (fun g => (g.1, g.2.map (fun e => e.1.url)))
        = [(CACHE_NAME,
            ["https://sync.example/".toList, "https://sync.example/index.html".toList,
             "https://sync.example/style.css".toList, "https://sync.example/app.js".toList,
             "https://sync.example/manifest.json".toList,
             "https://sync.example/icon.png".toList])]
      ∧ (∀ g ∈ workerRun workerBase CACHE_NAME [] sampleEvents, ∀ e ∈ g.2,
          includes e.1.url "/status".toList = false
            ∧ includes e.1.url "/upload".toList = false)
      ∧ (onFetch CACHE_NAME (workerRun workerBase CACHE_NAME [] sampleEvents) statusRequest
          (some { status := 200, content := 9, vary := [] })).ops = [] :=
  ⟨by decide,
   (cache_excludes_device_calls "https://sync.example".toList CACHE_NAME sampleEvents).1
     (by decide) (by decide),
   ((cache_excludes_device_calls "https://sync.example".toList CACHE_NAME sampleEvents).2
     (workerRun workerBase CACHE_NAME [] sampleEvents) statusRequest
     (some { status := 200, content := 9, vary := [] }) (Or.inl (by decide))).1⟩

/-! ## The service worker: activation -/

theorem foldl_delete_eq_filter (names : List Str) :
    ∀ cs : CacheStorage,
      names.foldl CacheStorage.delete cs = cs.filter (fun g => decide (g.1 ∉ names)) := by
  induction names with
  | nil => intro cs; simp
  | cons n ns ih =>
    intro cs
    rw [List.foldl_cons, ih, CacheStorage.delete, List.filter_filter]
    apply List.filter_congr
    intro g _
    simp only [List.mem_cons, not_or, ne_eq, decide_not, Bool.and_eq_true, Bool.not_eq_true',
      decide_eq_false_iff_not, Bool.decide_and]
    by_cases h1 : g.1 = n <;> by_cases h2 : g.1 ∈ ns <;> simp [h1, h2]

theorem onActivate_eq_filter (cacheName : Str) (cs : CacheStorage) :
    onActivate cacheName cs = cs.filter (fun g => decide (g.1 = cacheName)) := by
  rw [onActivate, foldl_delete_eq_filter]
  apply List.filter_congr
  intro g hg
  have hk : g.1 ∈ cs.keys := List.mem_map.2 ⟨g, hg, rfl⟩
  by_cases h : g.1 = cacheName
  · simp [h]
  · simp [h, List.mem_filter, hk]

theorem keys_filter (cacheName : Str) (cs : CacheStorage) :
    CacheStorage.keys (cs.filter (fun g => decide (g.1 = cacheName)))
      = (cs.keys).filter (fun k => decide (k = cacheName)) := by
  simp only [CacheStorage.keys, List.filter_map]
  rfl

theorem get_filter (cacheName : Str) (cs : CacheStorage) :
    CacheStorage.get (cs.filter (fun g => decide (g.1 = cacheName))) cacheName
      = CacheStorage.get cs cacheName := by
  simp only [CacheStorage.get, List.find?_filter]
  congr 2
  funext g
  simp

theorem onActivate_keys (cacheName : Str) (cs : CacheStorage) (hnd : cs.keys.Nodup)
    (hin : cacheName ∈ cs.keys) : (onActivate cacheName cs).keys = [cacheName] := by
  rw [onActivate_eq_filter, keys_filter, List.filter_eq, List.count_eq_one_of_mem hnd hin]
  rfl

theorem keys_openCache (cs : CacheStorage) (name : Str) :
    (cs.openCache name).keys = if name ∈ cs.keys then cs.keys else cs.keys ++ [name] := by
  unfold CacheStorage.openCache
  by_cases h : cs.any (fun g => decide (g.1 = name)) = true
  · rw [if_pos h]
    obtain ⟨g, hg, hgn⟩ := List.any_eq_true.1 h
    have hin : name ∈ cs.keys := List.mem_map.2 ⟨g, hg, by simpa using hgn⟩
    rw [if_pos hin]
  · rw [if_neg h]
    have hnot : name ∉ cs.keys := by
      intro hin
      obtain ⟨g, hg, hgn⟩ := List.mem_map.1 hin
      exact h (List.any_eq_true.2 ⟨g, hg, by simpa using hgn⟩)
    rw [if_neg hnot]
    simp [CacheStorage.keys]

theorem keys_onInstall (base cacheName : Str) (cs : CacheStorage)
    (net : Str → Option NetResponse) :
    (onInstall base cacheName cs net).keys = (cs.openCache cacheName).keys := by
  simp only [onInstall, CacheStorage.keys, List.map_map]
  apply List.map_congr_left
  intro g _
  simp only [Function.comp]
  split
  · split <;> rfl
  · rfl

/-- The store the `activate` listener receives: install has opened the current
generation, and names stay unique. -/
theorem installed_store (base cacheName : Str) (cs : CacheStorage)
    (net : Str → Option NetResponse) (hnd : cs.keys.Nodup) :
    (onInstall base cacheName cs net).keys.Nodup
      ∧ cacheName ∈ (onInstall base cacheName cs net).keys := by
  rw [keys_onInstall, keys_openCache]
  by_cases h : cacheName ∈ cs.keys
  · rw [if_pos h]
    exact ⟨hnd, h⟩
  · rw [if_neg h]
    refine ⟨?_, by simp⟩
    rw [List.nodup_append]
    refine ⟨hnd, List.nodup_singleton _, ?_⟩
    intro a ha hb
    rw [List.mem_singleton] at hb
    exact h (hb ▸ ha)

/-- Install followed by activate leaves the current generation alone. -/
theorem activate_after_install (base cacheName : Str) (cs : CacheStorage)
    (net : Str → Option NetResponse) (hnd : cs.keys.Nodup) :
    (onActivate cacheName (onInstall base cacheName cs net)).keys = [cacheName] :=
  onActivate_keys cacheName _ (installed_store base cacheName cs net hnd).1
    (installed_store base cacheName cs net hnd).2

/-- C9: for every cache storage the `activate` listener can receive, that is one with
unique generation names in which install has opened the current generation, after
the listener has run every generation whose name differs from the current name is
deleted, the current generation is kept with its entries untouched, and exactly one
generation survives; nothing of another generation is retrievable any more: what
`caches.match` finds is what the current generation holds. -/
theorem onActivate_spec (cacheName : Str) (cs : CacheStorage) (hnd : cs.keys.Nodup)
    (hin : cacheName ∈ cs.keys) :
    (∀ name, name ≠ cacheName →
        name ∉ (onActivate cacheName cs).keys ∧ (onActivate cacheName cs).get name = none)
      ∧ (∀ g, g ∈ onActivate cacheName cs ↔ g ∈ cs ∧ g.1 = cacheName)
      ∧ (onActivate cacheName cs).get cacheName = cs.get cacheName
      ∧ (onActivate cacheName cs).keys = [cacheName]
      ∧ (onActivate cacheName cs).length = 1
      ∧ (∃ c, cs.get cacheName = some c ∧ onActivate cacheName cs = [(cacheName, c)]
          ∧ ∀ request, (onActivate cacheName cs).matchRequest request
              = c.matchRequest request) := by
  have hmem : ∀ g, g ∈ onActivate cacheName cs ↔ g ∈ cs ∧ g.1 = cacheName := by
    intro g
    rw [onActivate_eq_filter, List.mem_filter]
    simp
  have hkeys := onActivate_keys cacheName cs hnd hin
  have hget : (onActivate cacheName cs).get cacheName = cs.get cacheName := by
    rw [onActivate_eq_filter, get_filter]
  have hone : ∃ c, onActivate cacheName cs = [(cacheName, c)] := by
    cases hA : onActivate cacheName cs with
    | nil => rw [hA] at hkeys; cases hkeys
    | cons g rest =>
      rw [hA] at hkeys
      simp only [CacheStorage.keys, List.map_cons, List.cons.injEq, List.map_eq_nil_iff]
        at hkeys
      obtain ⟨hg, hrest⟩ := hkeys
      refine ⟨g.2, ?_⟩
      rw [hrest, ← hg]
  refine ⟨?_, hmem, hget, hkeys, ?_, ?_⟩
  · intro name hne
    have hk : name ∉ (onActivate cacheName cs).keys := by
      rw [hkeys, List.mem_singleton]
      exact hne
    refine ⟨hk, ?_⟩
    simp only [CacheStorage.get, Option.map_eq_none', List.find?_eq_none, decide_eq_true_eq]
    intro g hg hgn
    exact hk (List.mem_map.2 ⟨g, hg, hgn⟩)
  · obtain ⟨c, hc⟩ := hone
    rw [hc]
    rfl
  · obtain ⟨c, hc⟩ := hone
    refine ⟨c, ?_, hc, ?_⟩
    · rw [← hget, hc]
      simp [CacheStorage.get]
    · intro request
      rw [hc]
      simp only [CacheStorage.matchRequest, List.findSome?_cons, List.findSome?_nil]
      cases Cache.matchRequest c request <;> rfl

/-- C9, on an example: this release has stored a shell file; the next release is
installed and activated. Its generation is the only one left, and the file stored by
this release is found with the contents the next release fetched. -/
theorem onActivate_spec_witness :
    (onInstall workerBase nextName
        [(CACHE_NAME, [(shellRequest, { status := 200, content := 5, vary := [] })])]
        allOk).keys = [CACHE_NAME, nextName]
      ∧ (onActivate nextName (onInstall workerBase nextName
        [(CACHE_NAME, [(shellRequest, { status := 200, content := 5, vary := [] })])]
        allOk)).keys = [nextName]
      ∧ (onActivate nextName (onInstall workerBase nextName
        [(CACHE_NAME, [(shellRequest, { status := 200, content := 5, vary := [] })])]
        allOk)).get CACHE_NAME = none
      ∧ (onActivate nextName (onInstall workerBase nextName
        [(CACHE_NAME, [(shellRequest, { status := 200, content := 5, vary := [] })])]
        allOk)).matchRequest shellRequest = some { status := 200, content := 1, vary := [] } :=
  ⟨by decide,
   (onActivate_spec nextName (onInstall workerBase nextName
      [(CACHE_NAME, [(shellRequest, { status := 200, content := 5, vary := [] })])] allOk)
      (by decide) (by decide)).2.2.2.1,
   ((onActivate_spec nextName (onInstall workerBase nextName
      [(CACHE_NAME, [(shellRequest, { status := 200, content := 5, vary := [] })])] allOk)
      (by decide) (by decide)).1 CACHE_NAME (by decide)).2,
   by decide⟩

/-! ## The service worker: serving a request -/

theorem putAllowed_iff (request : SwRequest) (resp : NetResponse) :
    putAllowed request resp = true
      ↔ request.method = .get ∧ hasHttpScheme request.url = true ∧ resp.status ≠ 206
          ∧ "*" ∉ resp.vary := by
  simp [putAllowed, and_assoc]

theorem requestMatches_self (request : SwRequest) (resp : NetResponse)
    (hm : request.method = .get) (hv : "*" ∉ resp.vary) :
    requestMatches request (request, resp) = true := by
  simp only [requestMatches, hm, decide_True, Bool.true_and, List.all_eq_true,
    Bool.and_eq_true, decide_eq_true_eq, and_true]
  intro field hf hstar
  exact hv (hstar ▸ hf)

theorem matchRequest_store (c : Cache) (request : SwRequest) (resp : NetResponse)
    (hm : request.method = .get) (hv : "*" ∉ resp.vary) :
    Cache.matchRequest (Cache.store c request resp) request = some resp := by
  have hnone : List.find? (requestMatches request)
      (List.filter (fun e => !requestMatches request e) c) = none := by
    rw [List.find?_eq_none]
    intro e he
    have := (List.mem_filter.1 he).2
    simpa using this
  unfold Cache.matchRequest Cache.store
  rw [List.find?_append, hnone, Option.none_or, List.find?_cons_of_pos]
  · rfl
  · exact requestMatches_self request resp hm hv

theorem exists_mem_openCache (cs : CacheStorage) (name : Str) :
    ∃ g ∈ cs.openCache name, g.1 = name := by
  unfold CacheStorage.openCache
  by_cases h : cs.any (fun g => decide (g.1 = name)) = true
  · rw [if_pos h]
    obtain ⟨g, hg, hgn⟩ := List.any_eq_true.1 h
    exact ⟨g, hg, by simpa using hgn⟩
  · rw [if_neg h]
    exact ⟨(name, []), by simp, rfl⟩

theorem stored_after_putIn (cs : CacheStorage) (name : Str) (request : SwRequest)
    (resp : NetResponse) (hp : putAllowed request resp = true) :
    ((cs.putIn name request resp).get name).bind (fun c => Cache.matchRequest c request)
      = some resp := by
  obtain ⟨hm, _, _, hv⟩ := (putAllowed_iff request resp).1 hp
  have hcomp : ((fun g : Str × Cache => decide (g.1 = name)) ∘
      (fun g : Str × Cache =>
        if g.1 = name then
          match Cache.put g.2 request resp with
          | some c => (g.1, c)
          | none => g
        else g))
      = (fun g : Str × Cache => decide (g.1 = name)) := by
    funext g
    simp only [Function.comp]
    split
    · split <;> rfl
    · rfl
  simp only [CacheStorage.get, CacheStorage.putIn, List.find?_map, hcomp]
  cases hf : List.find? (fun g => decide (g.1 = name)) (cs.openCache name) with
  | none =>
    exfalso
    obtain ⟨g, hg, hgn⟩ := exists_mem_openCache cs name
    rw [List.find?_eq_none] at hf
    exact hf g hg (by simpa using hgn)
  | some g0 =>
    have hg0 : g0.1 = name := by simpa using List.find?_some hf
    simp [hg0, Cache.put, hp, matchRequest_store _ _ _ hm hv]

theorem putIn_rejected (cs : CacheStorage) (name : Str) (request : SwRequest)
    (resp : NetResponse) (hp : putAllowed request resp = false) :
    cs.putIn name request resp = cs.openCache name := by
  simp only [CacheStorage.putIn, Cache.put, hp, Bool.false_eq_true, if_false]
  conv => rhs; rw [← List.map_id (cs.openCache name)]
  apply List.map_congr_left
  intro g _
  split <;> rfl

theorem not_stored_of_miss (cs : CacheStorage) (name : Str) (request : SwRequest)
    (h : cs.matchRequest request = none) :
    (cs.get name).bind (fun c => Cache.matchRequest c request) = none := by
  simp only [CacheStorage.matchRequest, List.findSome?_eq_none_iff] at h
  simp only [CacheStorage.get]
  cases hf : List.find? (fun g => decide (g.1 = name)) cs with
  | none => rfl
  | some g =>
    simp only [Option.map_some', Option.some_bind]
    exact h g (List.mem_of_find?_eq_some hf)

theorem miss_openCache (cs : CacheStorage) (name : Str) (request : SwRequest)
    (h : cs.matchRequest request = none) :
    (cs.openCache name).matchRequest request = none := by
  unfold CacheStorage.openCache
  split
  · exact h
  · simp only [CacheStorage.matchRequest, List.findSome?_eq_none_iff] at h ⊢
    intro g hg
    rcases List.mem_append.1 hg with hg | hg
    · exact h g hg
    · rw [List.mem_singleton] at hg
      rw [hg]
      rfl

/-- C10 fails as stated: a response with status 204 (a 2xx status) to a `GET` request
that is neither cached nor a device call is handed to the page and is not stored. -/
theorem onFetch_counterexample :
    isDeviceCall extraRequest.url = false
      ∧ NetResponse.ok { status := 204, content := 7, vary := [] } = true
      ∧ (onFetch CACHE_NAME [] extraRequest
          (some { status := 204, content := 7, vary := [] })).response
          = some { status := 204, content := 7, vary := [] }
      ∧ (onFetch CACHE_NAME [] extraRequest
          (some { status := 204, content := 7, vary := [] })).store = []
      ∧ ((onFetch CACHE_NAME [] extraRequest
          (some { status := 204, content := 7, vary := [] })).store.get CACHE_NAME).bind
            (fun c => Cache.matchRequest c extraRequest) = none := by
  decide

/-- C10, amended: for a request whose URL is not a device call, a response that
`caches.match` finds is returned without the network being used and the cache
storage is left alone. On a miss the outcome of the network request is what the page
gets, and the response is stored under the current generation if and only if its
status is exactly 200 and `cache.put` accepts the pair, that is the request is a
`GET` request for an `http` or `https` URL and the response has no `Vary: *`. With
any other status, or when the request fails, the cache storage is left alone; when
`cache.put` rejects, the current generation is opened and nothing is added. -/
theorem onFetch_spec (cacheName : Str) (cs : CacheStorage) (request : SwRequest)
    (net : Option NetResponse) (h : isDeviceCall request.url = false) :
    (∀ cached, cs.matchRequest request = some cached →
        onFetch cacheName cs request net
            = { responded := true, response := some cached,
                ops := [.cachesMatch request.url], store := cs }
          ∧ pageReceives cacheName cs request net = some cached)
      ∧ (cs.matchRequest request = none →
          (onFetch cacheName cs request net).responded = true
            ∧ (onFetch cacheName cs request net).response = net
            ∧ pageReceives cacheName cs request net = net
            ∧ (net = none → (onFetch cacheName cs request net).store = cs)
            ∧ (∀ resp, net = some resp →
                (resp.status ≠ 200 → (onFetch cacheName cs request net).store = cs)
                ∧ (resp.status = 200 →
                    (onFetch cacheName cs request net).store
                      = cs.putIn cacheName request resp)
                ∧ (resp.status = 200 → putAllowed request resp = false →
                    (onFetch cacheName cs request net).store = cs.openCache cacheName)
                ∧ (((onFetch cacheName cs request net).store.get cacheName).bind
                      (fun c => Cache.matchRequest c request) = some resp
                    ↔ resp.status = 200 ∧ request.method = .get
                        ∧ hasHttpScheme request.url = true ∧ "*" ∉ resp.vary)))
      ∧ (request.method ≠ .get → cs.matchRequest request = none) := by
  refine ⟨?_, ?_, ?_⟩
  · intro cached hm
    have hf : onFetch cacheName cs request net
        = { responded := true, response := some cached,
            ops := [.cachesMatch request.url], store := cs } := by
      simp [onFetch, h, hm]
    refine ⟨hf, ?_⟩
    simp [pageReceives, hf]
  · intro hm
    cases net with
    | none =>
      have hf : onFetch cacheName cs request none
          = { responded := true, response := none,
              ops := [.cachesMatch request.url, .networkFetch request.url],
              store := cs } := by
        simp [onFetch, h, hm]
      refine ⟨by rw [hf], by rw [hf], by simp [pageReceives, hf], fun _ => by rw [hf], ?_⟩
      intro resp hr
      cases hr
    | some response =>
      by_cases hs : response.status = 200
      · have hf : onFetch cacheName cs request (some response)
            = { responded := true, response := some response,
                ops := [.cachesMatch request.url, .networkFetch request.url,
                        .cachePut cacheName request.url],
                store := cs.putIn cacheName request response } := by
          simp [onFetch, h, hm, hs]
        refine ⟨by rw [hf], by rw [hf], by simp [pageReceives, hf], ?_, ?_⟩
        · intro hn; cases hn
        · intro resp hr
          injection hr with hr
          subst hr
          refine ⟨fun hne => absurd hs hne, fun _ => by rw [hf], ?_, ?_⟩
          · intro _ hp
            rw [hf]
            exact putIn_rejected cs cacheName request response hp
          · rw [hf]
            simp only []
            by_cases hp : putAllowed request response = true
            · rw [stored_after_putIn cs cacheName request response hp]
              obtain ⟨h1, h2, _, h4⟩ := (putAllowed_iff request response).1 hp
              simp only [true_iff]
              exact ⟨hs, h1, h2, h4⟩
            · have hp2 : putAllowed request response = false := by simpa using hp
              rw [putIn_rejected cs cacheName request response hp2,
                not_stored_of_miss _ cacheName request (miss_openCache cs cacheName request hm)]
              constructor
              · intro hc; cases hc
              · rintro ⟨_, h1, h2, h4⟩
                exfalso
                apply hp
                rw [putAllowed_iff]
                refine ⟨h1, h2, ?_, h4⟩
                rw [hs]
                decide
      · have hf : onFetch cacheName cs request (some response)
            = { responded := true, response := some response,
                ops := [.cachesMatch request.url, .networkFetch request.url],
                store := cs } := by
          simp [onFetch, h, hm, hs]
        refine ⟨by rw [hf], by rw [hf], by simp [pageReceives, hf], ?_, ?_⟩
        · intro hn; cases hn
        · intro resp hr
          injection hr with hr
          subst hr
          refine ⟨fun _ => by rw [hf], fun he => absurd he hs, fun he => absurd he hs, ?_⟩
          rw [hf]
          simp only [not_stored_of_miss cs cacheName request hm]
          constructor
          · intro hc; cases hc
          · intro he; exact absurd he.1 hs
  · intro hne
    simp only [CacheStorage.matchRequest, List.findSome?_eq_none_iff, Cache.matchRequest,
      Option.map_eq_none', List.find?_eq_none]
    intro g _ e _
    simp [requestMatches, hne]

/-- C10, amended, on examples: a file answered with status 200 on a miss is stored
under the current generation; once stored it is served without the network, also
for a URL with a fragment; the answer to a `POST` with status 200 is not stored. -/
theorem onFetch_spec_witness :
    isDeviceCall extraRequest.url = false
      ∧ (onFetch CACHE_NAME [] extraRequest
          (some { status := 200, content := 5, vary := [] })).store
          = [(CACHE_NAME, [(extraRequest, { status := 200, content := 5, vary := [] })])]
      ∧ (onFetch CACHE_NAME
            [(CACHE_NAME, [(extraRequest, { status := 200, content := 5, vary := [] })])]
            { extraRequest with url := "https://sync.example/icon.png#top".toList }
            none).ops = [.cachesMatch "https://sync.example/icon.png#top".toList]
      ∧ (onFetch CACHE_NAME [] { extraRequest with method := .post }
          (some { status := 200, content := 5, vary := [] })).store = [(CACHE_NAME, [])] := by
  refine ⟨by decide, ?_, ?_, ?_⟩
  · rw [(((onFetch_spec CACHE_NAME [] extraRequest
        (some { status := 200, content := 5, vary := [] })
        (by decide)).2.1 (by decide)).2.2.2.2 _ rfl).2.1 (by decide)]
    decide
  · rw [((onFetch_spec CACHE_NAME
        [(CACHE_NAME, [(extraRequest, { status := 200, content := 5, vary := [] })])]
        { extraRequest with url := "https://sync.example/icon.png#top".toList } none
        (by decide)).1 { status := 200, content := 5, vary := [] } (by decide)).1]
  · rw [(((onFetch_spec CACHE_NAME [] { extraRequest with method := .post }
        (some { status := 200, content := 5, vary := [] })
        (by decide)).2.1 (by decide)).2.2.2.2 _ rfl).2.2.1 (by decide) (by decide)]
    decide

end Crosspoint
